import Mathlib

/-!
Verification development for the GURT python client (`gurt` package).

The development shallowly embeds the protocol-relevant parts of the
client into Lean:

* the message codec (`GurtRequest.to_bytes` / `GurtRequest.parse`,
  `GurtResponse.to_bytes` / `GurtResponse.parse` from `gurt/message.py`),
* the status/method registry (`gurt/protocol.py`),
* the URL resolver (`GurtClient._parse_gurt_url` from `gurt/client.py`),
* the handshake negotiator (`GurtClient._perform_handshake`),
* the framed reader (`GurtClient._read_response_data`),
* the error taxonomy (`gurt/errors.py`) and client configuration.

Byte strings are modelled as lists of characters (`Str`); the Python
code decodes all header sections as UTF-8 text before operating on
them, so the character-level model matches the code on every input the
codec accepts.  Python string primitives used by the code
(`str.split`, `str.strip`, `str.lower`, `int`, slicing) are given
explicit executable models below.
-/

/-- Character strings standing for the Python `str`/`bytes` values the
client manipulates. -/
abbrev Str := List Char

/-- Coerce a Lean string literal into the `Str` model. -/
def str (s : String) : Str := s.data

/-- The CRLF line separator (`HEADER_SEPARATOR` in `gurt/protocol.py`). -/
def crlf : Str := ['\r', '\n']

/-- Python `str.isspace` characters relevant to `str.split()` and
`str.strip()` (ASCII whitespace). -/
def pyIsSpace (c : Char) : Bool :=
  c = ' ' || c = '\t' || c = '\n' || c = '\r' || c = '\x0b' || c = '\x0c'

/-- Prepend a character onto the first piece of a split result. -/
def consOntoHead (c : Char) : List Str → List Str
  | [] => [[c]]
  | l :: ls => (c :: l) :: ls

/-- Python `s.split("\r\n")`: split on every occurrence of CRLF. -/
def splitCRLF : Str → List Str
  | '\r' :: '\n' :: rest => [] :: splitCRLF rest
  | c :: rest => consOntoHead c (splitCRLF rest)
  | [] => [[]]

/-- Python `data.split("\r\n\r\n", 1)` guarded by `"\r\n\r\n" in data`:
locate the first occurrence of the blank-line terminator and split
there, or return `none` when the terminator is absent. -/
def splitBody : Str → Option (Str × Str)
  | '\r' :: '\n' :: '\r' :: '\n' :: rest => some ([], rest)
  | c :: rest => (splitBody rest).map (fun p => (c :: p.1, p.2))
  | [] => none

/-- Python `s.split()` helper: split on every single whitespace
character, keeping empty pieces. -/
def splitChars : Str → List Str
  | [] => [[]]
  | c :: rest =>
    if pyIsSpace c then [] :: splitChars rest else consOntoHead c (splitChars rest)

/-- Python `s.split()` (no argument): whitespace-separated tokens with
empty pieces discarded. -/
def pySplitWs (s : Str) : List Str := (splitChars s).filter (fun l => l ≠ [])

/-- Python `s.split(sep, 1)` for a single-character separator, as an
option: `some (before, after)` at the first occurrence of `sep`,
`none` when `sep` does not occur. -/
def splitFirst (sep : Char) : Str → Option (Str × Str)
  | [] => none
  | c :: rest =>
    if c = sep then some ([], rest)
    else (splitFirst sep rest).map (fun p => (c :: p.1, p.2))

/-- Python `s.split(' ', 2)`: at most two splits on single spaces, so
the third piece may itself contain spaces. -/
def splitSpace2 (s : Str) : List Str :=
  match splitFirst ' ' s with
  | none => [s]
  | some (a, rest) =>
    match splitFirst ' ' rest with
    | none => [a, rest]
    | some (b, rest2) => [a, b, rest2]

/-- Python `s.strip()`: drop whitespace from both ends. -/
def pyStrip (s : Str) : Str :=
  ((s.dropWhile pyIsSpace).reverse.dropWhile pyIsSpace).reverse

/-- Python `s.lower()` (ASCII case folding suffices for the protocol
tokens involved). -/
def lowerStr (s : Str) : Str := s.map Char.toLower

/-- Digit-sequence scanner for the Python `int` constructor: consumes
digits with single underscores allowed between digits, accumulating the
decimal value. -/
def pduScan : List Char → Nat → Option Nat
  | [], acc => some acc
  | c :: rest, acc =>
    if c.isDigit then pduScan rest (acc * 10 + (c.toNat - 48))
    else if c = '_' then
      match rest with
      | [] => none
      | d :: rest2 =>
        if d.isDigit then pduScan rest2 (acc * 10 + (d.toNat - 48)) else none
    else none

/-- Python unsigned decimal literal body (`int`, base 10): nonempty,
starts with a digit, underscores only between digits. -/
def parseDigitsU : Str → Option Nat
  | [] => none
  | c :: rest => if c.isDigit then pduScan rest (c.toNat - 48) else none

/-- Python `int(s)` for base-10 text: surrounding whitespace stripped,
optional sign, digit body; `none` models the `ValueError`. -/
def pyInt (s : Str) : Option Int :=
  match pyStrip s with
  | [] => none
  | c :: rest =>
    if c = '+' then (parseDigitsU rest).map (fun n => (n : Int))
    else if c = '-' then (parseDigitsU rest).map (fun n => -(n : Int))
    else (parseDigitsU (c :: rest)).map (fun n => (n : Int))

/-- Decimal digit characters. -/
def digitChar : Nat → Char
  | 0 => '0' | 1 => '1' | 2 => '2' | 3 => '3' | 4 => '4'
  | 5 => '5' | 6 => '6' | 7 => '7' | 8 => '8' | _ => '9'

/-- Decimal rendering worker: peel the last digit while the fuel
lasts (the fuel is always sufficient because a number needs fewer
digits than its own magnitude). -/
def natToStrGo : Nat → Nat → Str → Str
  | 0, n, acc => digitChar (n % 10) :: acc
  | fuel + 1, n, acc =>
    if n < 10 then digitChar (n % 10) :: acc
    else natToStrGo fuel (n / 10) (digitChar (n % 10) :: acc)

/-- Decimal rendering of a natural number (Python `str(n)` for the
nonnegative sizes the client prints). -/
def natToStr (n : Nat) : Str := natToStrGo n n []

/-- Join lines with CRLF (the inverse direction of `splitCRLF`). -/
def joinCRLF : List Str → Str
  | [] => []
  | [l] => l
  | l :: ls => l ++ crlf ++ joinCRLF ls

/-- Python `key in dict` for the header dictionaries. -/
def dictContains (d : List (Str × Str)) (k : Str) : Bool :=
  d.any (fun kv => decide (kv.1 = k))

/-- Python `dict[key] = value`: update in place when present, append
otherwise (insertion order preserved, last write wins). -/
def dictSet (d : List (Str × Str)) (k v : Str) : List (Str × Str) :=
  if dictContains d k then d.map (fun kv => if kv.1 = k then (k, v) else kv)
  else d ++ [(k, v)]

/-! ## Protocol constants and registry (`gurt/protocol.py`) -/

/-- `GURT_VERSION = "1.0.0"`. -/
def gurtVersion : Str := str "1.0.0"

/-- `DEFAULT_PORT = 4878`. -/
def defaultPort : Nat := 4878

/-- `PROTOCOL_PREFIX = "GURT/"`. -/
def protoPfx : Str := str "GURT/"

/-- `MAX_MESSAGE_SIZE = 10 * 1024 * 1024`. -/
def maxMessageSize : Nat := 10 * 1024 * 1024

/-- `GURT_ALPN = b"GURT/1.0"` decoded as text. -/
def gurtAlpn : Str := str "GURT/1.0"

/-- The closed `GurtMethod` enumeration. -/
inductive GurtMethod
  | get | post | put | delete | head | options | patch | handshake
deriving DecidableEq

/-- The wire token of each method (`GurtMethod.value`). -/
def methodStr : GurtMethod → Str
  | .get => str "GET"
  | .post => str "POST"
  | .put => str "PUT"
  | .delete => str "DELETE"
  | .head => str "HEAD"
  | .options => str "OPTIONS"
  | .patch => str "PATCH"
  | .handshake => str "HANDSHAKE"

/-- `GurtMethod(token)`: recover a method from its wire token, `none`
modelling the `ValueError` for unknown tokens. -/
def methodOfStr (t : Str) : Option GurtMethod :=
  if t = str "GET" then some .get
  else if t = str "POST" then some .post
  else if t = str "PUT" then some .put
  else if t = str "DELETE" then some .delete
  else if t = str "HEAD" then some .head
  else if t = str "OPTIONS" then some .options
  else if t = str "PATCH" then some .patch
  else if t = str "HANDSHAKE" then some .handshake
  else none

/-- The closed `GurtStatusCode` enumeration. -/
inductive GurtStatusCode
  | ok | created | accepted | noContent
  | switchingProtocols
  | badRequest | unauthorized | forbidden | notFound | methodNotAllowed
  | timeout | tooLarge | unsupportedMediaType | tooManyRequests
  | internalServerError | notImplemented | badGateway | serviceUnavailable
  | gatewayTimeout
deriving DecidableEq

/-- The integer value of each status code. -/
def GurtStatusCode.val : GurtStatusCode → Nat
  | .ok => 200 | .created => 201 | .accepted => 202 | .noContent => 204
  | .switchingProtocols => 101
  | .badRequest => 400 | .unauthorized => 401 | .forbidden => 403
  | .notFound => 404 | .methodNotAllowed => 405 | .timeout => 408
  | .tooLarge => 413 | .unsupportedMediaType => 415 | .tooManyRequests => 429
  | .internalServerError => 500 | .notImplemented => 501 | .badGateway => 502
  | .serviceUnavailable => 503 | .gatewayTimeout => 504

/-- `GurtStatusCode(n)`: recover a status code from its integer value,
`none` modelling the `ValueError` for unknown integers. -/
def statusOfInt (n : Int) : Option GurtStatusCode :=
  if n = 200 then some .ok
  else if n = 201 then some .created
  else if n = 202 then some .accepted
  else if n = 204 then some .noContent
  else if n = 101 then some .switchingProtocols
  else if n = 400 then some .badRequest
  else if n = 401 then some .unauthorized
  else if n = 403 then some .forbidden
  else if n = 404 then some .notFound
  else if n = 405 then some .methodNotAllowed
  else if n = 408 then some .timeout
  else if n = 413 then some .tooLarge
  else if n = 415 then some .unsupportedMediaType
  else if n = 429 then some .tooManyRequests
  else if n = 500 then some .internalServerError
  else if n = 501 then some .notImplemented
  else if n = 502 then some .badGateway
  else if n = 503 then some .serviceUnavailable
  else if n = 504 then some .gatewayTimeout
  else none

/-- `GurtStatusCode(int(token))` as one step: Python integer parse
followed by the enumeration lookup; `none` models the
`(ValueError, KeyError)` pair that `GurtResponse.parse` catches. -/
def statusFromTok (t : Str) : Option GurtStatusCode := (pyInt t).bind statusOfInt

/-- `STATUS_MESSAGES` lookup, via `GurtStatusCode.message()`; the map is
total on the enumeration so the `"UNKNOWN"` default is unreachable. -/
def statusMessage : GurtStatusCode → Str
  | .ok => str "OK" | .created => str "CREATED" | .accepted => str "ACCEPTED"
  | .noContent => str "NO_CONTENT"
  | .switchingProtocols => str "SWITCHING_PROTOCOLS"
  | .badRequest => str "BAD_REQUEST" | .unauthorized => str "UNAUTHORIZED"
  | .forbidden => str "FORBIDDEN" | .notFound => str "NOT_FOUND"
  | .methodNotAllowed => str "METHOD_NOT_ALLOWED" | .timeout => str "TIMEOUT"
  | .tooLarge => str "TOO_LARGE"
  | .unsupportedMediaType => str "UNSUPPORTED_MEDIA_TYPE"
  | .tooManyRequests => str "TOO_MANY_REQUESTS"
  | .internalServerError => str "INTERNAL_SERVER_ERROR"
  | .notImplemented => str "NOT_IMPLEMENTED" | .badGateway => str "BAD_GATEWAY"
  | .serviceUnavailable => str "SERVICE_UNAVAILABLE"
  | .gatewayTimeout => str "GATEWAY_TIMEOUT"

/-- `GurtStatusCode.is_success`: membership in the success tuple. -/
def GurtStatusCode.is_success (c : GurtStatusCode) : Bool :=
  c = GurtStatusCode.ok || c = GurtStatusCode.created ||
  c = GurtStatusCode.accepted || c = GurtStatusCode.noContent

/-- `GurtStatusCode.is_client_error`: `400 <= value < 500`. -/
def GurtStatusCode.is_client_error (c : GurtStatusCode) : Bool :=
  400 ≤ c.val && c.val < 500

/-- `GurtStatusCode.is_server_error`: `value >= 500` (the source has no
upper bound). -/
def GurtStatusCode.is_server_error (c : GurtStatusCode) : Bool :=
  500 ≤ c.val

/-! ## Error taxonomy (`gurt/errors.py`)

One constructor per exception class; `gurtError` is the base
`GurtError` class raised directly (the module defines no separate URL
error class). -/

/-- The `GurtError` exception family. -/
inductive GurtErr
  | gurtError (msg : Str)
  | protocolError (msg : Str)
  | connectionError (msg : Str)
  | timeoutError (msg : Str)
  | tlsError (msg : Str)
  | handshakeError (msg : Str)
deriving DecidableEq

/-- The message carried by a `GurtError` (`str(e)` in Python). -/
def GurtErr.message : GurtErr → Str
  | .gurtError m => m | .protocolError m => m | .connectionError m => m
  | .timeoutError m => m | .tlsError m => m | .handshakeError m => m

deriving instance DecidableEq for Except

/-! ## Message types and codec (`gurt/message.py`) -/

/-- `GurtRequest`: method, path, version, case-normalized header
dictionary (insertion order preserved), body bytes. -/
structure GurtRequest where
  method : GurtMethod
  path : Str
  version : Str
  headers : List (Str × Str)
  body : Str
deriving DecidableEq

/-- `GurtResponse`: version, status code, status message (the canonical
registry message unless overridden by the wire), headers, body. -/
structure GurtResponse where
  version : Str
  status_code : GurtStatusCode
  status_message : Str
  headers : List (Str × Str)
  body : Str
deriving DecidableEq

/-- The `content-length` header key. -/
def clKey : Str := str "content-length"

/-- The `user-agent` header key. -/
def uaKey : Str := str "user-agent"

/-- The default user-agent value
`f"GURT-Python-Client/{GURT_VERSION}"`. -/
def uaVal : Str := str "GURT-Python-Client/1.0.0"

/-- The `if key not in headers: headers[key] = value` defaulting step
both encoders use. -/
def addDefault (d : List (Str × Str)) (k v : Str) : List (Str × Str) :=
  if dictContains d k then d else dictSet d k v

/-- The header-default block of `GurtRequest.to_bytes`: copy the
headers and add `content-length` and `user-agent` when absent. -/
def requestDefaultHeaders (r : GurtRequest) : List (Str × Str) :=
  addDefault (addDefault r.headers clKey (natToStr r.body.length)) uaKey uaVal

/-- One emitted header line `f"{key}: {value}"` (without the CRLF). -/
def headerLine (kv : Str × Str) : Str := kv.1 ++ str ": " ++ kv.2

/-- `GurtRequest.to_bytes`: request line, defaulted headers, blank
line, body. -/
def GurtRequest.to_bytes (r : GurtRequest) : Str :=
  methodStr r.method ++ str " " ++ r.path ++ str " " ++ protoPfx ++ r.version ++ crlf
    ++ ((requestDefaultHeaders r).map (fun kv => headerLine kv ++ crlf)).flatten
    ++ crlf ++ r.body

/-- The header section of a raw message: everything before the first
blank-line terminator, or the whole buffer when no terminator occurs. -/
def headerSection (s : Str) : Str :=
  match splitBody s with
  | some (h, _) => h
  | none => s

/-- The body section of a raw message: everything after the first
blank-line terminator, or empty when no terminator occurs. -/
def bodySection (s : Str) : Str :=
  match splitBody s with
  | some (_, b) => b
  | none => []

/-- Header-line loop shared by `GurtRequest.parse` and
`GurtResponse.parse`: stop at the first blank/whitespace line, skip
lines without a colon, split each remaining line at its first colon,
and insert with stripped value and stripped lower-cased key. -/
def parseHeaderLines : List Str → List (Str × Str) → List (Str × Str)
  | [], acc => acc
  | line :: rest, acc =>
    if pyStrip line = [] then acc
    else
      match splitFirst ':' line with
      | some (k, v) => parseHeaderLines rest (dictSet acc (lowerStr (pyStrip k)) (pyStrip v))
      | none => parseHeaderLines rest acc

/-- The first line of the header section (line 0 of the CRLF split),
the line both parsers scan for tokens. -/
def firstLineOf (s : Str) : Str := (splitCRLF (headerSection s)).headD []

/-- `GurtRequest.parse`: split off the body, split the header section
into CRLF lines, parse the three-token request line, then the header
lines. -/
def GurtRequest.parse (s : Str) : Except GurtErr GurtRequest :=
  let lines := splitCRLF (headerSection s)
  if lines.isEmpty then .error (.protocolError (str "Empty request"))
  else
    match pySplitWs (lines.headD []) with
    | [mTok, pTok, vTok] =>
      match methodOfStr mTok with
      | none => .error (.protocolError (str "Unsupported method: " ++ mTok))
      | some m =>
        if protoPfx.isPrefixOf vTok then
          .ok { method := m, path := pTok, version := vTok.drop protoPfx.length,
                headers := parseHeaderLines lines.tail [], body := bodySection s }
        else .error (.protocolError (str "Invalid protocol identifier"))
    | _ => .error (.protocolError (str "Invalid request line format"))

/-- The header-default block of `GurtResponse.to_bytes`: copy the
headers and add `content-length`, `server` and `date` when absent; the
`date` value is the RFC-1123 timestamp the source formats from the
current time, threaded through here as the explicit argument `now`. -/
def responseDefaultHeaders (now : Str) (r : GurtResponse) : List (Str × Str) :=
  addDefault (addDefault (addDefault r.headers clKey (natToStr r.body.length))
    (str "server") (str "GURT/1.0.0")) (str "date") now
/-- `GurtResponse.to_bytes`: status line carrying code and message,
defaulted headers, blank line, body.  `now` is the wall-clock
timestamp the source reads inside the function. -/
def GurtResponse.to_bytes (now : Str) (r : GurtResponse) : Str :=
  protoPfx ++ r.version ++ str " " ++ natToStr r.status_code.val ++ str " "
    ++ r.status_message ++ crlf
    ++ ((responseDefaultHeaders now r).map (fun kv => headerLine kv ++ crlf)).flatten
    ++ crlf ++ r.body

/-- `GurtResponse.parse`: split off the body, parse the status line
with `split(' ', 2)` (version token, integer status code, optional
message override), then the header lines. -/
def GurtResponse.parse (s : Str) : Except GurtErr GurtResponse :=
  let lines := splitCRLF (headerSection s)
  if lines.isEmpty then .error (.protocolError (str "Empty response"))
  else
    match splitSpace2 (lines.headD []) with
    | p0 :: p1 :: rest =>
      if protoPfx.isPrefixOf p0 then
        match statusFromTok p1 with
        | none => .error (.protocolError (str "Invalid status code: " ++ p1))
        | some code =>
          .ok { version := p0.drop protoPfx.length, status_code := code,
                status_message := match rest with
                  | m :: _ => m
                  | [] => statusMessage code,
                headers := parseHeaderLines lines.tail [], body := bodySection s }
      else .error (.protocolError (str "Invalid protocol identifier"))
    | _ => .error (.protocolError (str "Invalid status line format"))

/-! ## Client configuration and TLS context (`gurt/client.py`) -/

/-- `GurtClientConfig` (timeouts in seconds). -/
structure GurtClientConfig where
  handshake_timeout : Nat
  request_timeout : Nat
  connection_timeout : Nat
  user_agent : Str
  verify_tls : Bool
deriving DecidableEq

/-- The configuration produced by `GurtClientConfig()` with all
defaults, as used by `GurtClient(None)`. -/
def defaultClientConfig : GurtClientConfig :=
  { handshake_timeout := 5, request_timeout := 30, connection_timeout := 10,
    user_agent := uaVal, verify_tls := false }

/-- `ssl.SSLContext.verify_mode` values touched by the client. -/
inductive VerifyMode
  | certRequired
  | certNone
deriving DecidableEq

/-- The observable state of the SSL context `_create_ssl_context`
configures. -/
structure SslContext where
  minimum_version : Str
  maximum_version : Str
  alpn_protocols : List Str
  check_hostname : Bool
  verify_mode : VerifyMode
deriving DecidableEq

/-- `GurtClient._create_ssl_context`: start from
`ssl.create_default_context()` (hostname checking on, certificates
required), pin TLS 1.3 as both minimum and maximum, offer the single
GURT ALPN identifier, and, when `verify_tls` is false, switch off
hostname checking and set `CERT_NONE`. -/
def createSslContext (cfg : GurtClientConfig) : SslContext :=
  let base : SslContext :=
    { minimum_version := str "TLSv1_3", maximum_version := str "TLSv1_3",
      alpn_protocols := [gurtAlpn], check_hostname := true,
      verify_mode := .certRequired }
  if cfg.verify_tls then base
  else { base with check_hostname := false, verify_mode := .certNone }

/-! ## Exceptions crossing the handshake boundary -/

/-- The exceptions that can reach the `except` clauses of
`_perform_handshake`: GURT errors, `socket.timeout`, `ssl.SSLError`,
`ValueError`, and anything else. -/
inductive PyExc
  | gurt (e : GurtErr)
  | socketTimeout
  | sslError (msg : Str)
  | valueError (msg : Str)
  | otherExc (msg : Str)
deriving DecidableEq

/-! ## URL resolver (`GurtClient._parse_gurt_url`) -/

/-- Characters that stay inside the netloc component in
`urllib.parse.urlparse` (everything up to the first `/`, `?` or `#`). -/
def netlocChar (c : Char) : Bool := !(c = '/' || c = '?' || c = '#')

/-- `path or "/"` followed by re-appending a nonempty query as
`f"{path}?{query}"`. -/
def buildPath (path query : Str) : Str :=
  let p := if path = [] then str "/" else path
  if query = [] then p else p ++ str "?" ++ query

/-- The numeric value of a decimal digit string (`int(s, 10)` on text
already known to be all digits). -/
def dsVal (ds : Str) : Nat := ds.foldl (fun a c => a * 10 + (c.toNat - 48)) 0

/-- Python `s.rpartition(sep)` for a single-character separator, as an
option: `some (before, after)` around the *last* occurrence of `sep`,
`none` when `sep` does not occur. -/
def splitLast (sep : Char) : Str → Option (Str × Str)
  | [] => none
  | c :: rest =>
    match splitLast sep rest with
    | some (a, b) => some (c :: a, b)
    | none => if c = sep then some ([], rest) else none

/-- The userinfo strip in `urllib.parse`'s `_hostinfo` property:
`_, _, hostinfo = netloc.rpartition(chr(64))` keeps what follows the
last `@` of the netloc (the whole netloc when there is none). -/
def hostinfoOf (netloc : Str) : Str :=
  match splitLast '@' netloc with
  | some (_, h) => h
  | none => netloc

/-- `urlsplit`'s bracket validation: a netloc holding `[` without `]`
or `]` without `[` raises `ValueError("Invalid IPv6 URL")` at parse
time. -/
def bracketMismatch (netloc : Str) : Bool :=
  (netloc.any (fun c => decide (c = '[')))
    != (netloc.any (fun c => decide (c = ']')))

/-- The host/port split of `_hostinfo`: when an opening bracket is
present the hostname is what stands between `[` and `]` and the port
follows the first `:` after `]`; otherwise hostname and port split at
the first `:`.  An empty port string becomes `None`. -/
def hostPortOf (hostinfo : Str) : Str × Option Str :=
  match splitFirst '[' hostinfo with
  | some (_, bracketed) =>
    match splitFirst ']' bracketed with
    | some (h, after) =>
      match splitFirst ':' after with
      | some (_, p) => (h, if p = [] then none else some p)
      | none => (h, none)
    | none => (bracketed, none)
  | none =>
    match splitFirst ':' hostinfo with
    | some (h, p) => (h, if p = [] then none else some p)
    | none => (hostinfo, none)

/-- The netloc of a `gurt://` URL: everything after the scheme up to
the first `/`, `?` or `#`. -/
def urlNetloc (url : Str) : Str :=
  (url.drop (str "gurt://").length).takeWhile netlocChar

/-- The hostname `urlparse` reports for a `gurt://` URL: the host part
of the netloc after the userinfo strip and the host/port split,
lower-cased.  `parsed.hostname` is falsy exactly when this is
empty. -/
def urlHostname (url : Str) : Str :=
  lowerStr (hostPortOf (hostinfoOf (urlNetloc url))).1

/-- `GurtClient._parse_gurt_url`: reject non-`gurt://` schemes, then
apply the `urlparse` component grammar — netloc up to the first `/`,
`?` or `#` with `urlsplit`'s bracket validation; fragment after the
first `#`; query after the first `?`; userinfo stripped at the last
`@` (`netloc.rpartition`); host and port split bracket-aware at the
first `:` with the host lower-cased — then reject a missing hostname,
validate the port the way `parsed.port` does (all ASCII digits and at
most 65535, `ValueError` otherwise), default the port (a zero or
absent port becomes `DEFAULT_PORT` through `parsed.port or
DEFAULT_PORT`), and re-append the query to the defaulted path. -/
def parseGurtUrl (url : Str) : Except PyExc (Str × Nat × Str) :=
  if (str "gurt://").isPrefixOf url then
    if bracketMismatch (urlNetloc url) then
      .error (.valueError (str "Invalid IPv6 URL"))
    else
      let rest := url.drop (str "gurt://").length
      let afterNetloc := rest.dropWhile netlocChar
      let pq := match splitFirst '#' afterNetloc with
        | some (a, _) => a
        | none => afterNetloc
      let path := match splitFirst '?' pq with
        | some (a, _) => a
        | none => pq
      let query := match splitFirst '?' pq with
        | some (_, q) => q
        | none => []
      let host := urlHostname url
      if host = [] then
        .error (.gurt (.gurtError (str "URL must have a hostname: " ++ url)))
      else
        match (hostPortOf (hostinfoOf (urlNetloc url))).2 with
        | none => .ok (host, defaultPort, buildPath path query)
        | some ps =>
          if ps.all Char.isDigit then
            if dsVal ps ≤ 65535 then
              .ok (host, (if dsVal ps = 0 then defaultPort else dsVal ps),
                buildPath path query)
            else .error (.valueError (str "Port out of range 0-65535"))
          else
            .error (.valueError (str "Port could not be cast to integer value"))
  else .error (.gurt (.gurtError (str "URL must use gurt:// scheme: " ++ url)))

/-! ## Handshake negotiator (`GurtClient._perform_handshake`) -/

/-- The observable state of the socket returned by `wrap_socket`. -/
structure TlsSock where
  selected_alpn : Option Str
deriving DecidableEq

/-- The message of the non-101 handshake failure,
`f"Handshake failed: {status_code} {status_message}"` (an `IntEnum`
formats as its integer value inside an f-string). -/
def handshakeMsg (resp : GurtResponse) : Str :=
  str "Handshake failed: " ++ natToStr resp.status_code.val ++ str " "
    ++ resp.status_message

/-- The tail of `_perform_handshake` after the handshake response has
been parsed: the 101 status check, then the TLS upgrade
(`wrap_socket`, abstracted as the oracle `wrap`), then the ALPN
post-condition.  The boolean records whether the wrap step was
reached. -/
def performHandshakeCheck (resp : GurtResponse)
    (wrap : Unit → Except PyExc TlsSock) : Except PyExc TlsSock × Bool :=
  if resp.status_code.val ≠ 101 then
    (.error (.gurt (.handshakeError (handshakeMsg resp))), false)
  else
    match wrap () with
    | .error e => (.error e, true)
    | .ok tls =>
      if tls.selected_alpn = some gurtAlpn then (.ok tls, true)
      else
        (.error (.gurt (.tlsError (str "ALPN negotiation failed. Expected "
          ++ gurtAlpn ++ str ", got "
          ++ (match tls.selected_alpn with
              | some a => a
              | none => str "None")))), true)

/-- The `except` clauses of `_perform_handshake`: `socket.timeout`
becomes a timeout error, `ssl.SSLError` becomes a TLS error, and any
other exception is re-raised unchanged only when it is a
`GurtHandshakeError`, `GurtTLSError` or `GurtTimeoutError` — every
other exception (including `GurtProtocolError`, `GurtConnectionError`
and the base `GurtError`) is wrapped into
`GurtHandshakeError(f"Handshake failed: {e}")`. -/
def handshakeExcHandler (e : PyExc) : GurtErr :=
  match e with
  | .socketTimeout => .timeoutError (str "Handshake timeout")
  | .sslError m => .tlsError (str "TLS handshake failed: " ++ m)
  | .gurt g =>
    match g with
    | .handshakeError m => .handshakeError m
    | .tlsError m => .tlsError m
    | .timeoutError m => .timeoutError m
    | g2 => .handshakeError (str "Handshake failed: " ++ g2.message)
  | .valueError m => .handshakeError (str "Handshake failed: " ++ m)
  | .otherExc m => .handshakeError (str "Handshake failed: " ++ m)

/-- `_perform_handshake` from the parsed response onward, with its
exception handler applied: what the caller of the negotiator
observes. -/
def handshakeOutcome (resp : GurtResponse)
    (wrap : Unit → Except PyExc TlsSock) : Except GurtErr TlsSock × Bool :=
  match performHandshakeCheck resp wrap with
  | (.ok t, att) => (.ok t, att)
  | (.error e, att) => (.error (handshakeExcHandler e), att)

/-! ## Framed reader (`GurtClient._read_response_data`) -/

/-- The header-accumulation loop: read chunks (an empty chunk models a
closed connection) until the blank-line terminator appears, enforcing
the maximum message size, and return the header bytes (terminator
included), the body bytes already read, and the unread remainder of
the stream. -/
def readUntilHeaders (data : Str) (stream : List Str) :
    Except GurtErr (Str × Str × List Str) :=
  if (splitBody data).isSome then
    let p := (splitBody data).getD ([], [])
    .ok (p.1 ++ crlf ++ crlf, p.2, stream)
  else
    match stream with
    | [] => .error (.connectionError (str "Connection closed while reading headers"))
    | chunk :: rest =>
      if chunk = [] then
        .error (.connectionError (str "Connection closed while reading headers"))
      else if maxMessageSize < (data ++ chunk).length then
        .error (.protocolError (str "Response too large"))
      else readUntilHeaders (data ++ chunk) rest

/-- The content-length scan of `_read_response_data`: find the first
header line whose lower-casing starts with `content-length:`, parse
the integer after the first colon, tolerate a parse failure as 0, and
stop at that line either way. -/
def extractContentLength : List Str → Int
  | [] => 0
  | line :: rest =>
    if (str "content-length:").isPrefixOf (lowerStr line) then
      match splitFirst ':' line with
      | some (_, after) =>
        match pyInt (pyStrip after) with
        | some n => n
        | none => 0
      | none => 0
    else extractContentLength rest

/-- The body loop of `_read_response_data`: while fewer body bytes
than `content_length` have arrived, request
`min(4096, content_length - len(body))` more bytes; a closed stream is
a connection error.  Bytes of a chunk beyond the requested size stay
in the stream, as in the socket buffer. -/
def readBody (cl : Int) (body : Str) (stream : List Str) : Except GurtErr Str :=
  if h : (body.length : Int) < cl then
    match stream with
    | [] => .error (.connectionError (str "Connection closed while reading body"))
    | chunk :: rest =>
      let want := min 4096 (cl - (body.length : Int))
      let c := chunk.take want.toNat
      let rest' := if chunk.length ≤ want.toNat then rest
                   else chunk.drop want.toNat :: rest
      if hc : c = [] then
        .error (.connectionError (str "Connection closed while reading body"))
      else readBody cl (body ++ c) rest'
  else .ok body
termination_by (cl - (body.length : Int)).toNat
decreasing_by
  have hc2 : List.take (4096 ⊓ (cl - (body.length : Int))).toNat chunk ≠ [] := hc
  have hlen : 0 < (List.take (4096 ⊓ (cl - (body.length : Int))).toNat chunk).length :=
    List.length_pos.mpr hc2
  simp only [List.length_append, Nat.cast_add]
  omega

/-- `GurtClient._read_response_data`: headers, content-length scan
(over the CRLF lines of the header bytes), body loop, and the
concatenated result. -/
def readResponseData (stream : List Str) : Except GurtErr Str :=
  match readUntilHeaders [] stream with
  | .error e => .error e
  | .ok (hd, bd, rest) =>
    match readBody (extractContentLength (splitCRLF hd)) bd rest with
    | .error e => .error e
    | .ok body => .ok (hd ++ body)

/-! ## Predicates and concrete objects used by the claim statements -/

/-- A string free of carriage returns and line feeds. -/
def noCRLF (l : Str) : Prop := ('\r' ∉ l) ∧ ('\n' ∉ l)

instance : DecidablePred noCRLF := fun l =>
  inferInstanceAs (Decidable (('\r' ∉ l) ∧ ('\n' ∉ l)))

/-- A string free of Python whitespace characters. -/
def nospace (l : Str) : Prop := ∀ c ∈ l, pyIsSpace c = false

instance : DecidablePred nospace := fun l =>
  inferInstanceAs (Decidable (∀ c ∈ l, pyIsSpace c = false))

/-- A header key the codec transports verbatim: colon-free, already
stripped and lower-cased (as `with_header` stores it), and free of
CR/LF. -/
def goodKey (k : Str) : Prop :=
  (':' ∉ k) ∧ pyStrip k = k ∧ lowerStr k = k ∧ noCRLF k

instance : DecidablePred goodKey := fun k =>
  inferInstanceAs (Decidable ((':' ∉ k) ∧ pyStrip k = k ∧ lowerStr k = k ∧ noCRLF k))

/-- A header value the codec transports verbatim: already stripped and
free of CR/LF. -/
def goodVal (v : Str) : Prop := pyStrip v = v ∧ noCRLF v

instance : DecidablePred goodVal := fun v =>
  inferInstanceAs (Decidable (pyStrip v = v ∧ noCRLF v))

/-- A hostname character: stays in the netloc (not `/`, `?` or `#`),
is not the port separator, the userinfo separator or a bracket, and is
unchanged by lower-casing. -/
def goodHostChar (c : Char) : Prop :=
  netlocChar c = true ∧ c ≠ ':' ∧ c ≠ '@' ∧ c ≠ '[' ∧ c ≠ ']'
    ∧ Char.toLower c = c

instance : DecidablePred goodHostChar := fun c =>
  inferInstanceAs (Decidable (netlocChar c = true ∧ c ≠ ':' ∧ c ≠ '@'
    ∧ c ≠ '[' ∧ c ≠ ']' ∧ Char.toLower c = c))

/-- A URL of the shape `gurt://host[:port][path][?query]` assembled
from its components (the address grammar of the spec). -/
def buildUrl (host : Str) (portDs : Option Str) (path query : Option Str) : Str :=
  str "gurt://" ++ host
    ++ (match portDs with | some ds => ':' :: ds | none => [])
    ++ (match path with | some p => p | none => [])
    ++ (match query with | some q => '?' :: q | none => [])

/-- A request with an empty header dictionary. -/
def reqNoHeaders : GurtRequest :=
  { method := .get, path := str "/", version := gurtVersion, headers := [], body := [] }

/-- A fixed encode-time timestamp for the `date` header default. -/
def nowStamp : Str := str "Mon, 06 Jan 2025 00:00:00 GMT"

/-- A response with an explicit status message and no headers. -/
def respPlain : GurtResponse :=
  { version := gurtVersion, status_code := .ok, status_message := str "Fine",
    headers := [], body := [] }

/-- A sample request exercising the round-trip. -/
def reqSample : GurtRequest :=
  { method := .post, path := str "/api", version := gurtVersion,
    headers := [(str "host", str "example.com")], body := str "hi" }

/-- A sample response with an explicit (non-canonical) status message. -/
def respSample : GurtResponse :=
  { version := gurtVersion, status_code := .notFound,
    status_message := str "Gone Fishing",
    headers := [(str "x-a", str "1")], body := str "nope" }

/-! ## Lemmas: CRLF splitting and joining -/

theorem splitCRLF_cons_ne (c : Char) (s : Str) (h : c ≠ '\r') :
    splitCRLF (c :: s) = consOntoHead c (splitCRLF s) := by
  rw [splitCRLF.eq_def]
  split
  · rename_i rest heq
    injection heq with h1 h2
    exact absurd h1 h
  · rename_i x c2 rest2 heq
    injection heq with h1 h2
    subst h1; subst h2; rfl
  · rename_i heq
    exact List.noConfusion heq

theorem splitBody_cons_ne (c : Char) (s : Str) (h : c ≠ '\r') :
    splitBody (c :: s) = (splitBody s).map (fun p => (c :: p.1, p.2)) := by
  rw [splitBody.eq_def]
  split
  · rename_i rest heq
    injection heq with h1 h2
    exact absurd h1 h
  · rename_i x c2 rest2 heq
    injection heq with h1 h2
    subst h1; subst h2; rfl
  · rename_i heq
    exact List.noConfusion heq

theorem noCRLF_cons (c : Char) (l : Str) (h : noCRLF (c :: l)) :
    c ≠ '\r' ∧ noCRLF l := by
  refine ⟨fun hh => h.1 (hh ▸ List.mem_cons_self c l), ⟨fun m => h.1 (List.mem_cons_of_mem c m), fun m => h.2 (List.mem_cons_of_mem c m)⟩⟩

theorem splitCRLF_append_line (l s : Str) (h : noCRLF l) :
    splitCRLF (l ++ crlf ++ s) = l :: splitCRLF s := by
  induction l with
  | nil => rfl
  | cons c l ih =>
    obtain ⟨hc, h'⟩ := noCRLF_cons c l h
    simp only [List.cons_append]
    rw [splitCRLF_cons_ne c _ hc, ih h']
    rfl

theorem splitCRLF_noCRLF (l : Str) (h : noCRLF l) : splitCRLF l = [l] := by
  induction l with
  | nil => rfl
  | cons c l ih =>
    obtain ⟨hc, h'⟩ := noCRLF_cons c l h
    rw [splitCRLF_cons_ne c _ hc, ih h']
    rfl

theorem splitCRLF_join (lines : List Str) (h : ∀ l ∈ lines, noCRLF l)
    (hne : lines ≠ []) : splitCRLF (joinCRLF lines) = lines := by
  induction lines with
  | nil => exact absurd rfl hne
  | cons l ls ih =>
    cases ls with
    | nil => exact splitCRLF_noCRLF l (h l (List.mem_cons_self l []))
    | cons l2 ls2 =>
      have hj : joinCRLF (l :: l2 :: ls2) = l ++ crlf ++ joinCRLF (l2 :: ls2) := rfl
      rw [hj, splitCRLF_append_line _ _ (h l (List.mem_cons_self l _)),
        ih (fun x hx => h x (List.mem_cons_of_mem l hx)) (by simp)]

theorem splitBody_append_noCRLF (l s : Str) (h : noCRLF l) :
    splitBody (l ++ s) = (splitBody s).map (fun p => (l ++ p.1, p.2)) := by
  induction l with
  | nil =>
    simp only [List.nil_append]
    cases hsb : splitBody s <;> simp
  | cons c l ih =>
    obtain ⟨hc, h'⟩ := noCRLF_cons c l h
    simp only [List.cons_append]
    rw [splitBody_cons_ne c _ hc, ih h']
    cases hsb : splitBody s <;> simp

theorem splitBody_crlf_cons (c : Char) (s : Str) (hc : c ≠ '\r') :
    splitBody ('\r' :: '\n' :: c :: s)
      = (splitBody (c :: s)).map (fun p => ('\r' :: '\n' :: p.1, p.2)) := by
  have h1 : splitBody ('\n' :: c :: s)
      = (splitBody (c :: s)).map (fun p => ('\n' :: p.1, p.2)) :=
    splitBody_cons_ne '\n' _ (by decide)
  rw [splitBody.eq_def]
  split
  · rename_i rest heq
    injection heq with e1 e2
    injection e2 with e3 e4
    injection e4 with e5 e6
    exact absurd e5 hc
  · rename_i x c2 rest2 heq
    injection heq with e1 e2
    subst e1; subst e2
    rw [h1]
    cases hsb : splitBody (c :: s) <;> simp
  · rename_i heq
    exact List.noConfusion heq

theorem joinCRLF_head_append (l2 : Str) (ls2 : List Str) :
    ∃ t, joinCRLF (l2 :: ls2) = l2 ++ t := by
  cases ls2 with
  | nil => exact ⟨[], by simp [joinCRLF]⟩
  | cons a b => exact ⟨crlf ++ joinCRLF (a :: b), by simp [joinCRLF]⟩

theorem splitBody_join (lines : List Str) (b : Str)
    (h : ∀ l ∈ lines, noCRLF l ∧ l ≠ []) :
    splitBody (joinCRLF lines ++ (crlf ++ crlf ++ b))
      = some (joinCRLF lines, b) := by
  induction lines with
  | nil =>
    have : splitBody (crlf ++ crlf ++ b) = some ([], b) := rfl
    simpa [joinCRLF] using this
  | cons l ls ih =>
    cases ls with
    | nil =>
      have hl := h l (List.mem_cons_self l [])
      have h2 : splitBody (l ++ (crlf ++ crlf ++ b))
          = (splitBody (crlf ++ crlf ++ b)).map (fun p => (l ++ p.1, p.2)) :=
        splitBody_append_noCRLF l _ hl.1
      have h3 : splitBody (crlf ++ crlf ++ b) = some ([], b) := rfl
      simp only [joinCRLF]
      rw [h2, h3]
      simp
    | cons l2 ls2 =>
      have hl := h l (List.mem_cons_self l _)
      have hl2 := h l2 (List.mem_cons_of_mem l (List.mem_cons_self l2 _))
      have hih := ih (fun x hx => h x (List.mem_cons_of_mem l hx))
      obtain ⟨t, ht⟩ := joinCRLF_head_append l2 ls2
      have hj : joinCRLF (l :: l2 :: ls2) = l ++ crlf ++ joinCRLF (l2 :: ls2) := rfl
      rw [hj]
      have h2 : splitBody (l ++ crlf ++ joinCRLF (l2 :: ls2) ++ (crlf ++ crlf ++ b))
          = splitBody (l ++ (crlf ++ (joinCRLF (l2 :: ls2) ++ (crlf ++ crlf ++ b)))) := by
        simp [List.append_assoc]
      rw [h2, splitBody_append_noCRLF l _ hl.1]
      obtain ⟨c, l2', hl2eq⟩ : ∃ c t2, l2 = c :: t2 := by
        cases l2 with
        | nil => exact absurd rfl hl2.2
        | cons a bb => exact ⟨a, bb, rfl⟩
      have hc : c ≠ '\r' := by
        have := hl2.1
        rw [hl2eq] at this
        exact (noCRLF_cons c l2' this).1
      have hX : joinCRLF (l2 :: ls2) ++ (crlf ++ crlf ++ b)
          = c :: (l2' ++ (t ++ (crlf ++ crlf ++ b))) := by
        rw [ht, hl2eq]
        simp [List.append_assoc]
      have h4 : splitBody (crlf ++ (joinCRLF (l2 :: ls2) ++ (crlf ++ crlf ++ b)))
          = (splitBody (joinCRLF (l2 :: ls2) ++ (crlf ++ crlf ++ b))).map
              (fun p => ('\r' :: '\n' :: p.1, p.2)) := by
        rw [hX]
        exact splitBody_crlf_cons c _ hc
      rw [h4, hih]
      simp [List.append_assoc]
      rfl

/-! ## Lemmas: whitespace tokenisation -/

theorem consOntoHead_ne_nil (c : Char) (ls : List Str) : consOntoHead c ls ≠ [] := by
  cases ls <;> simp [consOntoHead]

theorem splitChars_ne_nil (s : Str) : splitChars s ≠ [] := by
  induction s with
  | nil => simp [splitChars]
  | cons c s ih =>
    by_cases h : pyIsSpace c
    · simp [splitChars, h]
    · simp only [splitChars, h, if_false, Bool.false_eq_true]
      exact consOntoHead_ne_nil c (splitChars s)

theorem splitChars_token (t s : Str) (h : nospace t) :
    splitChars (t ++ s) = (t ++ (splitChars s).headD []) :: (splitChars s).tail := by
  induction t with
  | nil =>
    simp only [List.nil_append]
    cases hs : splitChars s with
    | nil => exact absurd hs (splitChars_ne_nil s)
    | cons a b => simp
  | cons c t ih =>
    have hc : pyIsSpace c = false := h c (List.mem_cons_self c t)
    have h' : nospace t := fun x hx => h x (List.mem_cons_of_mem c hx)
    simp only [List.cons_append, splitChars, hc, Bool.false_eq_true, if_false,
      List.append_eq]
    rw [ih h']
    rfl

theorem pySplitWs_three (t1 t2 t3 : Str)
    (h1 : nospace t1) (h2 : nospace t2) (h3 : nospace t3)
    (n1 : t1 ≠ []) (n2 : t2 ≠ []) (n3 : t3 ≠ []) :
    pySplitWs (t1 ++ ' ' :: (t2 ++ ' ' :: t3)) = [t1, t2, t3] := by
  have e3 : splitChars t3 = [t3] := by
    have := splitChars_token t3 [] h3
    simpa [splitChars] using this
  have e2 : splitChars (' ' :: t3) = [] :: [t3] := by
    rw [show (' ' :: t3) = [' '] ++ t3 by rfl]
    simp [splitChars, show pyIsSpace ' ' = true by decide, e3]
  have e1 : splitChars (t2 ++ ' ' :: t3) = t2 :: [t3] := by
    rw [splitChars_token t2 _ h2, e2]
    simp
  have e0 : splitChars (' ' :: (t2 ++ ' ' :: t3)) = [] :: t2 :: [t3] := by
    simp [splitChars, show pyIsSpace ' ' = true by decide, e1]
  have eAll : splitChars (t1 ++ ' ' :: (t2 ++ ' ' :: t3)) = t1 :: t2 :: [t3] := by
    rw [splitChars_token t1 _ h1, e0]
    simp
  unfold pySplitWs
  rw [eAll]
  simp [n1, n2, n3]

/-! ## Lemmas: single-character splits -/

theorem splitFirst_not_mem (sep : Char) (t : Str) (h : sep ∉ t) :
    splitFirst sep t = none := by
  induction t with
  | nil => rfl
  | cons c t ih =>
    have hc : c ≠ sep := fun hh => h (hh ▸ List.mem_cons_self c t)
    simp [splitFirst, hc, ih (fun hm => h (List.mem_cons_of_mem c hm))]

theorem splitFirst_append (sep : Char) (t s : Str) (h : sep ∉ t) :
    splitFirst sep (t ++ sep :: s) = some (t, s) := by
  induction t with
  | nil => simp [splitFirst]
  | cons c t ih =>
    have hc : c ≠ sep := fun hh => h (hh ▸ List.mem_cons_self c t)
    simp [splitFirst, hc, ih (fun hm => h (List.mem_cons_of_mem c hm))]

theorem splitSpace2_three (t1 t2 m : Str) (h1 : ' ' ∉ t1) (h2 : ' ' ∉ t2) :
    splitSpace2 (t1 ++ ' ' :: (t2 ++ ' ' :: m)) = [t1, t2, m] := by
  unfold splitSpace2
  rw [splitFirst_append ' ' t1 _ h1]
  dsimp only
  rw [splitFirst_append ' ' t2 _ h2]

theorem splitSpace2_two (t1 t2 : Str) (h1 : ' ' ∉ t1) (h2 : ' ' ∉ t2) :
    splitSpace2 (t1 ++ ' ' :: t2) = [t1, t2] := by
  unfold splitSpace2
  rw [splitFirst_append ' ' t1 _ h1]
  dsimp only
  rw [splitFirst_not_mem ' ' t2 h2]

/-! ## Lemmas: stripping, lower-casing, prefixes -/

theorem dropWhile_all_false (p : Char → Bool) (l : Str)
    (h : ∀ c ∈ l, p c = false) : l.dropWhile p = l := by
  cases l with
  | nil => rfl
  | cons c t => simp [List.dropWhile_cons, h c (List.mem_cons_self c t)]

theorem pyStrip_eq_self (l : Str) (h : ∀ c ∈ l, pyIsSpace c = false) :
    pyStrip l = l := by
  unfold pyStrip
  rw [dropWhile_all_false _ _ h,
    dropWhile_all_false _ _ (fun c hc => h c (List.mem_reverse.mp hc)),
    List.reverse_reverse]

theorem pyStrip_cons_space (s : Str) : pyStrip (' ' :: s) = pyStrip s := by
  unfold pyStrip
  simp [List.dropWhile_cons, show pyIsSpace ' ' = true by decide]

theorem pyStrip_ne_nil (l : Str) (c : Char) (hm : c ∈ l)
    (hc : pyIsSpace c = false) : pyStrip l ≠ [] := by
  unfold pyStrip
  intro h
  have h1 : (l.dropWhile pyIsSpace).reverse.dropWhile pyIsSpace = [] := by
    rwa [List.reverse_eq_nil_iff] at h
  have h2 : ∀ x ∈ (l.dropWhile pyIsSpace).reverse, pyIsSpace x = true := by
    rw [← List.dropWhile_eq_nil_iff]
    exact h1
  have hcdrop : c ∈ l.dropWhile pyIsSpace := by
    rcases (List.mem_append.mp (by rw [List.takeWhile_append_dropWhile]; exact hm :
        c ∈ l.takeWhile pyIsSpace ++ l.dropWhile pyIsSpace)) with htk | hdr
    · exact absurd (List.mem_takeWhile_imp htk) (by simp [hc])
    · exact hdr
  exact absurd (h2 c (List.mem_reverse.mpr hcdrop)) (by simp [hc])

theorem lowerStr_id (l : Str) (h : ∀ c ∈ l, Char.toLower c = c) :
    lowerStr l = l := by
  unfold lowerStr
  induction l with
  | nil => rfl
  | cons c t ih =>
    simp only [List.map_cons, h c (List.mem_cons_self c t)]
    rw [ih (fun x hx => h x (List.mem_cons_of_mem c hx))]

theorem lowerStr_append (a b : Str) :
    lowerStr (a ++ b) = lowerStr a ++ lowerStr b := List.map_append Char.toLower a b

theorem isPrefixOf_append_self (p s : Str) : p.isPrefixOf (p ++ s) = true := by
  induction p with
  | nil => simp [List.isPrefixOf]
  | cons c t ih => simpa [List.isPrefixOf] using ih

/-! ## Lemmas: dictionary operations -/

theorem dictContains_eq_false (d : List (Str × Str)) (k : Str)
    (h : k ∉ d.map Prod.fst) : dictContains d k = false := by
  unfold dictContains
  rw [List.any_eq_false]
  intro kv hkv
  simp only [decide_eq_true_eq]
  exact fun he => h (he ▸ List.mem_map_of_mem Prod.fst hkv)

theorem dictSet_absent (d : List (Str × Str)) (k v : Str)
    (h : k ∉ d.map Prod.fst) : dictSet d k v = d ++ [(k, v)] := by
  unfold dictSet
  rw [dictContains_eq_false d k h]
  simp

/-! ## Lemmas: digits and decimal rendering -/

theorem digitChar_isDigit (n : Nat) : (digitChar n).isDigit = true := by
  rcases n with _|_|_|_|_|_|_|_|_|m <;> first | decide | rfl

theorem isDigit_not_space (c : Char) (h : c.isDigit = true) :
    pyIsSpace c = false := by
  cases hh : pyIsSpace c
  · rfl
  · exfalso
    simp only [pyIsSpace, Bool.or_eq_true, decide_eq_true_eq] at hh
    rcases hh with (((((rfl | rfl) | rfl) | rfl) | rfl) | rfl) <;>
      exact absurd h (by decide)

theorem isDigit_ne (c : Char) (h : c.isDigit = true) (d : Char)
    (hd : d.isDigit = false) : c ≠ d := by
  intro he
  rw [he, hd] at h
  exact Bool.noConfusion h

theorem natToStrGo_digits (fuel : Nat) : ∀ n acc,
    (∀ c ∈ acc, c.isDigit = true) → ∀ c ∈ natToStrGo fuel n acc, c.isDigit = true := by
  induction fuel with
  | zero =>
    intro n acc hacc c hc
    rcases List.mem_cons.mp hc with rfl | hm
    · exact digitChar_isDigit (n % 10)
    · exact hacc c hm
  | succ fuel ih =>
    intro n acc hacc c hc
    by_cases h10 : n < 10
    · simp only [natToStrGo, h10, if_true] at hc
      rcases List.mem_cons.mp hc with rfl | hm
      · exact digitChar_isDigit (n % 10)
      · exact hacc c hm
    · simp only [natToStrGo, h10, if_false] at hc
      refine ih (n / 10) (digitChar (n % 10) :: acc) ?_ c hc
      intro x hx
      rcases List.mem_cons.mp hx with rfl | hm
      · exact digitChar_isDigit (n % 10)
      · exact hacc x hm

theorem natToStr_digits (n : Nat) : ∀ c ∈ natToStr n, c.isDigit = true :=
  natToStrGo_digits n n [] (by simp)

theorem natToStr_nospace (n : Nat) : nospace (natToStr n) :=
  fun c hc => isDigit_not_space c (natToStr_digits n c hc)

theorem natToStr_noCRLF (n : Nat) : noCRLF (natToStr n) := by
  constructor
  · intro hm
    exact absurd (natToStr_digits n '\r' hm) (by decide)
  · intro hm
    exact absurd (natToStr_digits n '\n' hm) (by decide)

theorem goodVal_natToStr (n : Nat) : goodVal (natToStr n) := by
  refine ⟨pyStrip_eq_self _ (natToStr_nospace n), natToStr_noCRLF n⟩

/-! ## Lemmas: the Python integer parser on digit strings -/

theorem pduScan_digits (ds : Str) : ∀ acc,
    (∀ c ∈ ds, c.isDigit = true) →
    pduScan ds acc = some (ds.foldl (fun a c => a * 10 + (c.toNat - 48)) acc) := by
  induction ds with
  | nil => intro acc _; rfl
  | cons c t ih =>
    intro acc h
    have hc : c.isDigit = true := h c (List.mem_cons_self c t)
    have step : pduScan (c :: t) acc = pduScan t (acc * 10 + (c.toNat - 48)) := by
      rw [pduScan.eq_def]
      simp [hc]
    rw [step, List.foldl_cons]
    exact ih _ (fun x hx => h x (List.mem_cons_of_mem c hx))

theorem parseDigitsU_digits (ds : Str) (hne : ds ≠ [])
    (h : ∀ c ∈ ds, c.isDigit = true) : parseDigitsU ds = some (dsVal ds) := by
  cases ds with
  | nil => exact absurd rfl hne
  | cons c t =>
    have hc : c.isDigit = true := h c (List.mem_cons_self c t)
    simp only [parseDigitsU, hc, if_true]
    rw [pduScan_digits t _ (fun x hx => h x (List.mem_cons_of_mem c hx))]
    simp [dsVal]

theorem pyInt_digits (ds : Str) (hne : ds ≠ [])
    (h : ∀ c ∈ ds, c.isDigit = true) : pyInt ds = some ((dsVal ds : Nat) : Int) := by
  have hstrip : pyStrip ds = ds :=
    pyStrip_eq_self ds (fun c hc => isDigit_not_space c (h c hc))
  unfold pyInt
  rw [hstrip]
  cases ds with
  | nil => exact absurd rfl hne
  | cons c t =>
    have hc : c.isDigit = true := h c (List.mem_cons_self c t)
    have hplus : c ≠ '+' := isDigit_ne c hc '+' (by decide)
    have hminus : c ≠ '-' := isDigit_ne c hc '-' (by decide)
    simp only [hplus, hminus, if_false]
    rw [parseDigitsU_digits (c :: t) (by simp) h]
    rfl

/-! ## Lemmas: header defaulting -/

theorem dictContains_iff (d : List (Str × Str)) (k : Str) :
    dictContains d k = true ↔ k ∈ d.map Prod.fst := by
  unfold dictContains
  rw [List.any_eq_true]
  constructor
  · rintro ⟨kv, hkv, he⟩
    exact (decide_eq_true_eq.mp he) ▸ List.mem_map_of_mem Prod.fst hkv
  · intro hm
    rcases List.mem_map.mp hm with ⟨kv, hkv, he⟩
    exact ⟨kv, hkv, decide_eq_true_eq.mpr he⟩

theorem dictSet_not_contains (d : List (Str × Str)) (k v : Str)
    (h : dictContains d k = false) : dictSet d k v = d ++ [(k, v)] := by
  unfold dictSet
  rw [h]
  simp

theorem addDefault_good (d : List (Str × Str)) (k v : Str)
    (hd : ∀ kv ∈ d, goodKey kv.1 ∧ goodVal kv.2)
    (hk : goodKey k) (hv : goodVal v) :
    ∀ kv ∈ addDefault d k v, goodKey kv.1 ∧ goodVal kv.2 := by
  unfold addDefault
  cases h : dictContains d k
  · rw [if_neg (by simp), dictSet_not_contains d k v h]
    intro kv hkv
    rcases List.mem_append.mp hkv with hm | hm
    · exact hd kv hm
    · rcases List.mem_singleton.mp hm with rfl
      exact ⟨hk, hv⟩
  · rw [if_pos rfl]
    exact hd

theorem addDefault_nodup (d : List (Str × Str)) (k v : Str)
    (hd : (d.map Prod.fst).Nodup) :
    ((addDefault d k v).map Prod.fst).Nodup := by
  unfold addDefault
  cases h : dictContains d k
  · rw [if_neg (by simp), dictSet_not_contains d k v h]
    rw [List.map_append]
    rw [List.nodup_append]
    refine ⟨hd, by simp, ?_⟩
    intro a ha hb
    simp only [List.map_cons, List.map_nil, List.mem_singleton] at hb
    subst hb
    exact absurd ((dictContains_iff d a).mpr ha) (by simp [h])
  · rw [if_pos rfl]
    exact hd

theorem requestDefaultHeaders_good (r : GurtRequest)
    (hd : ∀ kv ∈ r.headers, goodKey kv.1 ∧ goodVal kv.2) :
    ∀ kv ∈ requestDefaultHeaders r, goodKey kv.1 ∧ goodVal kv.2 := by
  unfold requestDefaultHeaders
  exact addDefault_good _ _ _
    (addDefault_good _ _ _ hd (by decide) (goodVal_natToStr _))
    (by decide) (by decide)

theorem requestDefaultHeaders_nodup (r : GurtRequest)
    (hd : (r.headers.map Prod.fst).Nodup) :
    ((requestDefaultHeaders r).map Prod.fst).Nodup := by
  unfold requestDefaultHeaders
  exact addDefault_nodup _ _ _ (addDefault_nodup _ _ _ hd)

theorem responseDefaultHeaders_good (now : Str) (r : GurtResponse)
    (hd : ∀ kv ∈ r.headers, goodKey kv.1 ∧ goodVal kv.2)
    (hnow : goodVal now) :
    ∀ kv ∈ responseDefaultHeaders now r, goodKey kv.1 ∧ goodVal kv.2 := by
  unfold responseDefaultHeaders
  exact addDefault_good _ _ _
    (addDefault_good _ _ _
      (addDefault_good _ _ _ hd (by decide) (goodVal_natToStr _))
      (by decide) (by decide))
    (by decide) hnow

theorem responseDefaultHeaders_nodup (now : Str) (r : GurtResponse)
    (hd : (r.headers.map Prod.fst).Nodup) :
    ((responseDefaultHeaders now r).map Prod.fst).Nodup := by
  unfold responseDefaultHeaders
  exact addDefault_nodup _ _ _ (addDefault_nodup _ _ _ (addDefault_nodup _ _ _ hd))

/-! ## Lemmas: header-line re-parsing -/

theorem headerLine_eq (k v : Str) : headerLine (k, v) = k ++ ':' :: ' ' :: v := by
  simp only [headerLine]
  rw [List.append_assoc]
  rfl

theorem parseHeaderLines_emit (hs : List (Str × Str)) : ∀ acc,
    (∀ kv ∈ hs, goodKey kv.1 ∧ goodVal kv.2) →
    ((acc ++ hs).map Prod.fst).Nodup →
    parseHeaderLines (hs.map headerLine) acc = acc ++ hs := by
  induction hs with
  | nil => intro acc _ _; simp [parseHeaderLines]
  | cons kv hs ih =>
    intro acc hgood hnodup
    obtain ⟨k, v⟩ := kv
    have hg := hgood (k, v) (List.mem_cons_self _ _)
    have hk : goodKey k := hg.1
    have hv : goodVal v := hg.2
    have hmem : ':' ∈ headerLine (k, v) := by
      rw [headerLine_eq]
      exact List.mem_append.mpr (Or.inr (List.mem_cons_self ':' _))
    have hstrip_ne : pyStrip (headerLine (k, v)) ≠ [] :=
      pyStrip_ne_nil _ ':' hmem (by decide)
    have hsplit : splitFirst ':' (headerLine (k, v)) = some (k, ' ' :: v) := by
      rw [headerLine_eq]
      exact splitFirst_append ':' k (' ' :: v) hk.1
    have hknotin : k ∉ acc.map Prod.fst := by
      have h2 := hnodup
      rw [List.map_append] at h2
      have h3 := (List.nodup_append.mp h2).2.2
      intro hmem2
      exact h3 hmem2 (by simp)
    have hstep : parseHeaderLines (headerLine (k, v) :: hs.map headerLine) acc
        = parseHeaderLines (hs.map headerLine)
            (dictSet acc (lowerStr (pyStrip k)) (pyStrip (' ' :: v))) := by
      rw [parseHeaderLines.eq_def]
      dsimp only
      rw [if_neg hstrip_ne, hsplit]
    rw [List.map_cons, hstep]
    rw [show lowerStr (pyStrip k) = k by rw [hk.2.1, hk.2.2.1],
      show pyStrip (' ' :: v) = v by rw [pyStrip_cons_space, hv.1],
      dictSet_absent acc k v hknotin]
    have hassoc : (acc ++ [(k, v)]) ++ hs = acc ++ (k, v) :: hs := by simp
    rw [ih (acc ++ [(k, v)])
      (fun x hx => hgood x (List.mem_cons_of_mem _ hx))
      (by rw [hassoc]; exact hnodup), hassoc]

/-! ## Lemmas: token and line building blocks -/

theorem nospace_noCRLF (l : Str) (h : nospace l) : noCRLF l := by
  constructor
  · intro hm
    exact absurd (h '\r' hm) (by decide)
  · intro hm
    exact absurd (h '\n' hm) (by decide)

theorem nospace_append (a b : Str) (ha : nospace a) (hb : nospace b) :
    nospace (a ++ b) := by
  intro c hc
  rcases List.mem_append.mp hc with h | h
  · exact ha c h
  · exact hb c h

theorem noCRLF_append (a b : Str) (ha : noCRLF a) (hb : noCRLF b) :
    noCRLF (a ++ b) := by
  constructor
  · intro hm
    rcases List.mem_append.mp hm with h | h
    · exact ha.1 h
    · exact hb.1 h
  · intro hm
    rcases List.mem_append.mp hm with h | h
    · exact ha.2 h
    · exact hb.2 h

theorem noCRLF_cons_of (c : Char) (l : Str) (h1 : c ≠ '\r') (h2 : c ≠ '\n')
    (h : noCRLF l) : noCRLF (c :: l) := by
  constructor
  · intro hm
    rcases List.mem_cons.mp hm with he | hm2
    · exact h1 he.symm
    · exact h.1 hm2
  · intro hm
    rcases List.mem_cons.mp hm with he | hm2
    · exact h2 he.symm
    · exact h.2 hm2

theorem space_not_mem (t : Str) (h : nospace t) : ' ' ∉ t :=
  fun hm => absurd (h ' ' hm) (by decide)

theorem methodStr_spec (m : GurtMethod) :
    methodOfStr (methodStr m) = some m ∧ methodStr m ≠ [] ∧ nospace (methodStr m) := by
  cases m <;> refine ⟨by decide, by decide, by decide⟩

theorem protoPfx_nospace : nospace protoPfx := by decide

theorem headerLine_noCRLF (k v : Str) (hk : goodKey k) (hv : goodVal v) :
    noCRLF (headerLine (k, v)) := by
  rw [headerLine_eq]
  exact noCRLF_append k _ hk.2.2.2
    (noCRLF_cons_of ':' _ (by decide) (by decide)
      (noCRLF_cons_of ' ' _ (by decide) (by decide) hv.2))

theorem headerLine_ne_nil (k v : Str) : headerLine (k, v) ≠ [] := by
  rw [headerLine_eq]
  simp

/-! ## Lemmas: the shape of encoded messages -/

theorem lines_shape (line : Str) (ls : List Str) (b : Str) :
    line ++ (crlf ++ ((ls.map (fun l => l ++ crlf)).flatten ++ (crlf ++ b)))
      = joinCRLF (line :: ls) ++ (crlf ++ (crlf ++ b)) := by
  induction ls generalizing line with
  | nil => simp [joinCRLF]
  | cons l ls ih =>
    simp only [List.map_cons, List.flatten_cons, List.append_assoc]
    rw [ih l]
    rw [show joinCRLF (line :: l :: ls) = line ++ crlf ++ joinCRLF (l :: ls) from rfl]
    simp [List.append_assoc]

theorem request_to_bytes_eq (r : GurtRequest) :
    GurtRequest.to_bytes r
      = joinCRLF ((methodStr r.method ++ ' ' :: (r.path ++ ' ' :: (protoPfx ++ r.version)))
          :: (requestDefaultHeaders r).map headerLine)
        ++ (crlf ++ (crlf ++ r.body)) := by
  have hmap : (requestDefaultHeaders r).map (fun kv => headerLine kv ++ crlf)
      = ((requestDefaultHeaders r).map headerLine).map (fun l => l ++ crlf) := by
    rw [List.map_map]
    rfl
  unfold GurtRequest.to_bytes
  rw [hmap, ← lines_shape]
  rw [show str " " = [' '] from rfl]
  simp [List.append_assoc]

theorem request_roundtrip_core (r : GurtRequest)
    (hpathne : r.path ≠ []) (hpath : nospace r.path)
    (hver : nospace r.version)
    (hhdr : ∀ kv ∈ r.headers, goodKey kv.1 ∧ goodVal kv.2)
    (hnodup : (r.headers.map Prod.fst).Nodup) :
    GurtRequest.parse (GurtRequest.to_bytes r)
      = .ok { method := r.method, path := r.path, version := r.version,
              headers := requestDefaultHeaders r, body := r.body } := by
  obtain ⟨hm1, hm2, hm3⟩ := methodStr_spec r.method
  have hverPfx : nospace (protoPfx ++ r.version) :=
    nospace_append _ _ protoPfx_nospace hver
  have hHS : ∀ kv ∈ requestDefaultHeaders r, goodKey kv.1 ∧ goodVal kv.2 :=
    requestDefaultHeaders_good r hhdr
  have hHSnodup := requestDefaultHeaders_nodup r hnodup
  set L : Str := methodStr r.method ++ ' ' :: (r.path ++ ' ' :: (protoPfx ++ r.version))
    with hLdef
  have hLno : noCRLF L :=
    noCRLF_append _ _ (nospace_noCRLF _ hm3)
      (noCRLF_cons_of ' ' _ (by decide) (by decide)
        (noCRLF_append _ _ (nospace_noCRLF _ hpath)
          (noCRLF_cons_of ' ' _ (by decide) (by decide)
            (nospace_noCRLF _ hverPfx))))
  have hLne : L ≠ [] := by
    rw [hLdef]
    simp
  have hlines : ∀ l ∈ L :: (requestDefaultHeaders r).map headerLine,
      noCRLF l ∧ l ≠ [] := by
    intro l hl
    rcases List.mem_cons.mp hl with rfl | hm
    · exact ⟨hLno, hLne⟩
    · rcases List.mem_map.mp hm with ⟨kv, hkv, rfl⟩
      obtain ⟨k, v⟩ := kv
      have hg := hHS (k, v) hkv
      exact ⟨headerLine_noCRLF k v hg.1 hg.2, headerLine_ne_nil k v⟩
  have hsb : splitBody (GurtRequest.to_bytes r)
      = some (joinCRLF (L :: (requestDefaultHeaders r).map headerLine), r.body) := by
    rw [request_to_bytes_eq r]
    have hsj := splitBody_join (L :: (requestDefaultHeaders r).map headerLine)
      r.body hlines
    simpa [List.append_assoc] using hsj
  have hheader : headerSection (GurtRequest.to_bytes r)
      = joinCRLF (L :: (requestDefaultHeaders r).map headerLine) := by
    unfold headerSection
    rw [hsb]
  have hbody : bodySection (GurtRequest.to_bytes r) = r.body := by
    unfold bodySection
    rw [hsb]
  have hlines2 : splitCRLF (headerSection (GurtRequest.to_bytes r))
      = L :: (requestDefaultHeaders r).map headerLine := by
    rw [hheader]
    exact splitCRLF_join _ (fun l hl => (hlines l hl).1) (by simp)
  have hsplit3 : pySplitWs L = [methodStr r.method, r.path, protoPfx ++ r.version] :=
    pySplitWs_three _ _ _ hm3 hpath hverPfx hm2 hpathne
      (fun h => (by decide : protoPfx ≠ []) (List.append_eq_nil.mp h).1)
  unfold GurtRequest.parse
  rw [hlines2]
  simp only [List.isEmpty_cons, Bool.false_eq_true, if_false, List.headD_cons,
    List.tail_cons]
  rw [hsplit3]
  dsimp only
  rw [hm1]
  dsimp only
  rw [if_pos (isPrefixOf_append_self protoPfx r.version)]
  rw [List.drop_left, parseHeaderLines_emit (requestDefaultHeaders r) [] hHS
    (by simpa using hHSnodup), hbody]
  simp

theorem statusFromTok_natToStr (c : GurtStatusCode) :
    statusFromTok (natToStr c.val) = some c := by
  cases c <;> first | rfl | decide


theorem response_to_bytes_eq (now : Str) (r : GurtResponse) :
    GurtResponse.to_bytes now r
      = joinCRLF (((protoPfx ++ r.version)
            ++ ' ' :: (natToStr r.status_code.val ++ ' ' :: r.status_message))
          :: (responseDefaultHeaders now r).map headerLine)
        ++ (crlf ++ (crlf ++ r.body)) := by
  have hmap : (responseDefaultHeaders now r).map (fun kv => headerLine kv ++ crlf)
      = ((responseDefaultHeaders now r).map headerLine).map (fun l => l ++ crlf) := by
    rw [List.map_map]
    rfl
  unfold GurtResponse.to_bytes
  rw [hmap, ← lines_shape]
  rw [show str " " = [' '] from rfl]
  simp [List.append_assoc]

theorem response_roundtrip_core (now : Str) (r : GurtResponse)
    (hver : nospace r.version)
    (hmsg : noCRLF r.status_message)
    (hhdr : ∀ kv ∈ r.headers, goodKey kv.1 ∧ goodVal kv.2)
    (hnodup : (r.headers.map Prod.fst).Nodup)
    (hnow : goodVal now) :
    GurtResponse.parse (GurtResponse.to_bytes now r)
      = .ok { version := r.version, status_code := r.status_code,
              status_message := r.status_message,
              headers := responseDefaultHeaders now r, body := r.body } := by
  have hverPfx : nospace (protoPfx ++ r.version) :=
    nospace_append _ _ protoPfx_nospace hver
  have hHS : ∀ kv ∈ responseDefaultHeaders now r, goodKey kv.1 ∧ goodVal kv.2 :=
    responseDefaultHeaders_good now r hhdr hnow
  have hHSnodup := responseDefaultHeaders_nodup now r hnodup
  set L : Str := (protoPfx ++ r.version)
      ++ ' ' :: (natToStr r.status_code.val ++ ' ' :: r.status_message)
    with hLdef
  have hLno : noCRLF L :=
    noCRLF_append _ _ (nospace_noCRLF _ hverPfx)
      (noCRLF_cons_of ' ' _ (by decide) (by decide)
        (noCRLF_append _ _ (natToStr_noCRLF _)
          (noCRLF_cons_of ' ' _ (by decide) (by decide) hmsg)))
  have hLne : L ≠ [] := by
    rw [hLdef]
    simp
  have hlines : ∀ l ∈ L :: (responseDefaultHeaders now r).map headerLine,
      noCRLF l ∧ l ≠ [] := by
    intro l hl
    rcases List.mem_cons.mp hl with rfl | hm
    · exact ⟨hLno, hLne⟩
    · rcases List.mem_map.mp hm with ⟨kv, hkv, rfl⟩
      obtain ⟨k, v⟩ := kv
      have hg := hHS (k, v) hkv
      exact ⟨headerLine_noCRLF k v hg.1 hg.2, headerLine_ne_nil k v⟩
  have hsb : splitBody (GurtResponse.to_bytes now r)
      = some (joinCRLF (L :: (responseDefaultHeaders now r).map headerLine), r.body) := by
    rw [response_to_bytes_eq now r]
    have hsj := splitBody_join (L :: (responseDefaultHeaders now r).map headerLine)
      r.body hlines
    simpa [List.append_assoc] using hsj
  have hheader : headerSection (GurtResponse.to_bytes now r)
      = joinCRLF (L :: (responseDefaultHeaders now r).map headerLine) := by
    unfold headerSection
    rw [hsb]
  have hbody : bodySection (GurtResponse.to_bytes now r) = r.body := by
    unfold bodySection
    rw [hsb]
  have hlines2 : splitCRLF (headerSection (GurtResponse.to_bytes now r))
      = L :: (responseDefaultHeaders now r).map headerLine := by
    rw [hheader]
    exact splitCRLF_join _ (fun l hl => (hlines l hl).1) (by simp)
  have hsplit3 : splitSpace2 L
      = [protoPfx ++ r.version, natToStr r.status_code.val, r.status_message] :=
    splitSpace2_three _ _ _ (space_not_mem _ hverPfx)
      (space_not_mem _ (natToStr_nospace _))
  unfold GurtResponse.parse
  rw [hlines2]
  simp only [List.isEmpty_cons, Bool.false_eq_true, if_false, List.headD_cons,
    List.tail_cons]
  rw [hsplit3]
  dsimp only
  rw [if_pos (isPrefixOf_append_self protoPfx r.version)]
  rw [statusFromTok_natToStr r.status_code]
  dsimp only
  rw [List.drop_left, parseHeaderLines_emit (responseDefaultHeaders now r) [] hHS
    (by simpa using hHSnodup), hbody]
  simp

theorem response_parse_canonical (v : Str) (hv : nospace v)
    (code : GurtStatusCode) (b : Str) :
    GurtResponse.parse (((protoPfx ++ v) ++ ' ' :: natToStr code.val)
        ++ (crlf ++ (crlf ++ b)))
      = .ok { version := v, status_code := code,
              status_message := statusMessage code, headers := [], body := b } := by
  have hverPfx : nospace (protoPfx ++ v) :=
    nospace_append _ _ protoPfx_nospace hv
  set L : Str := (protoPfx ++ v) ++ ' ' :: natToStr code.val with hLdef
  have hLno : noCRLF L :=
    noCRLF_append _ _ (nospace_noCRLF _ hverPfx)
      (noCRLF_cons_of ' ' _ (by decide) (by decide) (natToStr_noCRLF _))
  have hLne : L ≠ [] := by
    rw [hLdef]
    simp
  have hlines : ∀ l ∈ [L], noCRLF l ∧ l ≠ [] := by
    intro l hl
    rcases List.mem_cons.mp hl with rfl | hm
    · exact ⟨hLno, hLne⟩
    · exact absurd hm (List.not_mem_nil l)
  have hsb : splitBody (L ++ (crlf ++ (crlf ++ b))) = some (L, b) := by
    have hsj := splitBody_join [L] b hlines
    simpa [joinCRLF, List.append_assoc] using hsj
  have hheader : headerSection (L ++ (crlf ++ (crlf ++ b))) = L := by
    unfold headerSection
    rw [hsb]
  have hbody : bodySection (L ++ (crlf ++ (crlf ++ b))) = b := by
    unfold bodySection
    rw [hsb]
  have hlines2 : splitCRLF (headerSection (L ++ (crlf ++ (crlf ++ b)))) = [L] := by
    rw [hheader]
    exact splitCRLF_noCRLF L hLno
  have hsplit2 : splitSpace2 L = [protoPfx ++ v, natToStr code.val] :=
    splitSpace2_two _ _ (space_not_mem _ hverPfx)
      (space_not_mem _ (natToStr_nospace _))
  unfold GurtResponse.parse
  rw [hlines2]
  simp only [List.isEmpty_cons, Bool.false_eq_true, if_false, List.headD_cons,
    List.tail_cons]
  rw [hsplit2]
  dsimp only
  rw [if_pos (isPrefixOf_append_self protoPfx v)]
  rw [statusFromTok_natToStr code]
  dsimp only
  rw [List.drop_left, hbody]
  rfl

/-! ## Lemmas: parser plumbing -/

theorem splitCRLF_ne_nil (s : Str) : splitCRLF s ≠ [] := by
  rw [splitCRLF.eq_def]
  split
  · simp
  · exact consOntoHead_ne_nil _ _
  · simp

theorem splitCRLF_isEmpty_false (s : Str) : (splitCRLF s).isEmpty = false := by
  cases h : splitCRLF s
  · exact absurd h (splitCRLF_ne_nil s)
  · rfl

theorem splitSpace2_ne_nil (s : Str) : splitSpace2 s ≠ [] := by
  unfold splitSpace2
  cases h1 : splitFirst ' ' s with
  | none => simp
  | some p =>
    obtain ⟨a, rest⟩ := p
    cases h2 : splitFirst ' ' rest with
    | none => simp [h2]
    | some q =>
      obtain ⟨b, rest2⟩ := q
      simp [h2]

/-! ## Lemmas: the framed reader -/

theorem readBody_nonpos (cl : Int) (body : Str) (stream : List Str)
    (hcl : cl ≤ 0) : readBody cl body stream = .ok body := by
  unfold readBody
  rw [dif_neg]
  intro hlt
  have : (0 : Int) ≤ (body.length : Int) := by positivity
  omega

theorem contentLengthLine_lower_pfx (v : Str) :
    (str "content-length:").isPrefixOf (lowerStr (str "content-length:" ++ v))
      = true := by
  rw [lowerStr_append, show lowerStr (str "content-length:") = str "content-length:"
    from by decide]
  exact isPrefixOf_append_self _ _

theorem contentLengthLine_after_colon (v : Str) :
    splitFirst ':' (str "content-length:" ++ v) = some (str "content-length", v) := by
  rw [show str "content-length:" ++ v = str "content-length" ++ ':' :: v from rfl]
  exact splitFirst_append ':' (str "content-length") v (by decide)

/-! ## Lemmas: URL component splitting -/

theorem takeWhile_append_all (p : Char → Bool) (a b : Str)
    (h : ∀ c ∈ a, p c = true) : (a ++ b).takeWhile p = a ++ b.takeWhile p := by
  induction a with
  | nil => simp
  | cons c t ih =>
    simp only [List.cons_append, List.takeWhile_cons,
      h c (List.mem_cons_self c t), if_true]
    rw [ih (fun x hx => h x (List.mem_cons_of_mem c hx))]

theorem dropWhile_append_all (p : Char → Bool) (a b : Str)
    (h : ∀ c ∈ a, p c = true) : (a ++ b).dropWhile p = b.dropWhile p := by
  induction a with
  | nil => simp
  | cons c t ih =>
    simp only [List.cons_append, List.dropWhile_cons,
      h c (List.mem_cons_self c t), if_true]
    exact ih (fun x hx => h x (List.mem_cons_of_mem c hx))

theorem joinCRLF_append (lines ls2 : List Str) (h1 : lines ≠ []) (h2 : ls2 ≠ []) :
    joinCRLF (lines ++ ls2) = joinCRLF lines ++ crlf ++ joinCRLF ls2 := by
  induction lines with
  | nil => exact absurd rfl h1
  | cons l t ih =>
    cases t with
    | nil =>
      cases ls2 with
      | nil => exact absurd rfl h2
      | cons a b =>
        simp only [List.nil_append, List.cons_append]
        rfl
    | cons l2 t2 =>
      simp only [List.cons_append]
      rw [show joinCRLF (l :: l2 :: (t2 ++ ls2))
        = l ++ crlf ++ joinCRLF (l2 :: (t2 ++ ls2)) from rfl]
      rw [show joinCRLF (l2 :: (t2 ++ ls2)) = joinCRLF ((l2 :: t2) ++ ls2) from rfl]
      rw [ih (by simp)]
      rw [show joinCRLF (l :: l2 :: t2) = l ++ crlf ++ joinCRLF (l2 :: t2) from rfl]
      simp [List.append_assoc]

theorem extractCL_skip (pre : List Str)
    (h : ∀ l ∈ pre, (str "content-length:").isPrefixOf (lowerStr l) = false) :
    ∀ rest, extractContentLength (pre ++ rest) = extractContentLength rest := by
  induction pre with
  | nil => intro rest; rfl
  | cons l t ih =>
    intro rest
    have hl : (str "content-length:").isPrefixOf (lowerStr l) = false :=
      h l (List.mem_cons_self l t)
    rw [List.cons_append, extractContentLength.eq_def]
    dsimp only
    rw [hl]
    simp only [Bool.false_eq_true, if_false]
    exact ih (fun x hx => h x (List.mem_cons_of_mem l hx)) rest

theorem extractCL_clLine (v : Str) (tail : List Str)
    (hnum : pyInt (pyStrip v) = none) :
    extractContentLength ((str "content-length:" ++ v) :: tail) = 0 := by
  rw [extractContentLength.eq_def]
  dsimp only
  rw [contentLengthLine_lower_pfx v]
  rw [if_pos (show (true = true) from rfl)]
  rw [contentLengthLine_after_colon v]
  dsimp only
  rw [hnum]

theorem lenient_cl_general (pre post : List Str) (v b : Str) (rest : List Str)
    (hpre : ∀ l ∈ pre, l ≠ [] ∧ noCRLF l
      ∧ (str "content-length:").isPrefixOf (lowerStr l) = false)
    (hpost : ∀ l ∈ post, l ≠ [] ∧ noCRLF l)
    (hv : noCRLF v)
    (hnum : pyInt (pyStrip v) = none)
    (hsize : (joinCRLF (pre ++ (str "content-length:" ++ v) :: post)
        ++ crlf ++ crlf ++ b).length ≤ maxMessageSize) :
    readResponseData ((joinCRLF (pre ++ (str "content-length:" ++ v) :: post)
        ++ crlf ++ crlf ++ b) :: rest)
      = .ok (joinCRLF (pre ++ (str "content-length:" ++ v) :: post)
          ++ crlf ++ crlf ++ b) := by
  set clLine : Str := str "content-length:" ++ v with hcldef
  set lines : List Str := pre ++ clLine :: post with hlinesdef
  set chunk : Str := joinCRLF lines ++ crlf ++ crlf ++ b with hchunkdef
  have hclno : noCRLF clLine := noCRLF_append _ _ (by decide) hv
  have hclne : clLine ≠ [] := by
    rw [hcldef]
    intro h
    exact absurd (List.append_eq_nil.mp h).1 (by decide)
  have hlinesne : lines ≠ [] := by
    rw [hlinesdef]
    simp
  have hlinesok : ∀ l ∈ lines, noCRLF l ∧ l ≠ [] := by
    intro l hl
    rw [hlinesdef] at hl
    rcases List.mem_append.mp hl with hm | hm
    · exact ⟨(hpre l hm).2.1, (hpre l hm).1⟩
    · rcases List.mem_cons.mp hm with rfl | hm2
      · exact ⟨hclno, hclne⟩
      · exact ⟨(hpost l hm2).2, (hpost l hm2).1⟩
  have hchunkne : chunk ≠ [] := by
    rw [hchunkdef]
    intro h
    exact absurd (List.append_eq_nil.mp (List.append_eq_nil.mp
      (List.append_eq_nil.mp h).1).1).2 (by decide)
  have hsplitchunk : splitBody chunk = some (joinCRLF lines, b) := by
    rw [hchunkdef]
    have hsj := splitBody_join lines b hlinesok
    simpa [List.append_assoc] using hsj
  have hstep2 : readUntilHeaders chunk rest
      = .ok (joinCRLF lines ++ crlf ++ crlf, b, rest) := by
    unfold readUntilHeaders
    rw [hsplitchunk]
    rfl
  have hruh : readUntilHeaders [] (chunk :: rest)
      = .ok (joinCRLF lines ++ crlf ++ crlf, b, rest) := by
    rw [show readUntilHeaders [] (chunk :: rest)
        = if chunk = [] then
            Except.error (GurtErr.connectionError
              (str "Connection closed while reading headers"))
          else if maxMessageSize < (([] : Str) ++ chunk).length then
            Except.error (GurtErr.protocolError (str "Response too large"))
          else readUntilHeaders (([] : Str) ++ chunk) rest from rfl]
    rw [if_neg hchunkne, if_neg (by simp; rw [hchunkdef] at hsize; exact hsize),
      show ([] : Str) ++ chunk = chunk from rfl, hstep2]
  have hjoin2 : joinCRLF lines ++ crlf ++ crlf = joinCRLF (lines ++ [[], []]) := by
    rw [joinCRLF_append lines [[], []] hlinesne (by simp)]
    have : joinCRLF [[], []] = crlf := by
      simp [joinCRLF]
    rw [this]
  have hsplitcrlf : splitCRLF (joinCRLF lines ++ crlf ++ crlf)
      = lines ++ [[], []] := by
    rw [hjoin2]
    refine splitCRLF_join _ ?_ (by simp)
    intro l hl
    rcases List.mem_append.mp hl with hm | hm
    · exact (hlinesok l hm).1
    · rcases List.mem_cons.mp hm with rfl | hm2
      · exact ⟨List.not_mem_nil _, List.not_mem_nil _⟩
      · rcases List.mem_cons.mp hm2 with rfl | hm3
        · exact ⟨List.not_mem_nil _, List.not_mem_nil _⟩
        · exact absurd hm3 (List.not_mem_nil l)
  have hext : extractContentLength (lines ++ [[], []]) = 0 := by
    rw [hlinesdef]
    rw [show (pre ++ clLine :: post) ++ [[], []] = pre ++ (clLine :: (post ++ [[], []]))
      from by simp]
    rw [extractCL_skip pre (fun l hl => (hpre l hl).2.2) (clLine :: (post ++ [[], []]))]
    rw [hcldef]
    exact extractCL_clLine v _ hnum
  unfold readResponseData
  rw [hruh]
  dsimp only
  rw [hsplitcrlf, hext, readBody_nonpos 0 b rest le_rfl]

theorem isDigit_netlocChar (c : Char) (h : c.isDigit = true) :
    netlocChar c = true := by
  have h1 : c ≠ '/' := isDigit_ne c h '/' (by decide)
  have h2 : c ≠ '?' := isDigit_ne c h '?' (by decide)
  have h3 : c ≠ '#' := isDigit_ne c h '#' (by decide)
  simp [netlocChar, h1, h2, h3]

theorem takeWhile_all (p : Char → Bool) (l : Str)
    (h : ∀ c ∈ l, p c = true) : l.takeWhile p = l := by
  simpa using takeWhile_append_all p l [] h

theorem dropWhile_all (p : Char → Bool) (l : Str)
    (h : ∀ c ∈ l, p c = true) : l.dropWhile p = [] := by
  simpa using dropWhile_append_all p l [] h

theorem any_eq_false_of_not (p : Char → Bool) (l : Str)
    (h : ∀ c ∈ l, p c = false) : l.any p = false := by
  induction l with
  | nil => rfl
  | cons c t ih =>
    simp only [List.any_cons, h c (List.mem_cons_self c t), Bool.false_or]
    exact ih (fun x hx => h x (List.mem_cons_of_mem c hx))

theorem all_eq_true_of (p : Char → Bool) (l : Str)
    (h : ∀ c ∈ l, p c = true) : l.all p = true := by
  induction l with
  | nil => rfl
  | cons c t ih =>
    simp only [List.all_cons, h c (List.mem_cons_self c t), Bool.true_and]
    exact ih (fun x hx => h x (List.mem_cons_of_mem c hx))

theorem splitLast_not_mem (sep : Char) (t : Str) (h : sep ∉ t) :
    splitLast sep t = none := by
  induction t with
  | nil => rfl
  | cons c rest ih =>
    have hc : c ≠ sep := fun he => h (he ▸ List.mem_cons_self c rest)
    have hr : splitLast sep rest = none :=
      ih (fun hm => h (List.mem_cons_of_mem c hm))
    rw [splitLast.eq_def]
    dsimp only
    rw [hr]
    dsimp only
    exact if_neg hc

theorem bracketMismatch_none (netloc : Str)
    (h : ∀ c ∈ netloc, c ≠ '[' ∧ c ≠ ']') :
    bracketMismatch netloc = false := by
  unfold bracketMismatch
  rw [any_eq_false_of_not _ _ (fun c hc => decide_eq_false ((h c hc).1)),
    any_eq_false_of_not _ _ (fun c hc => decide_eq_false ((h c hc).2))]
  rfl

theorem parse_gurt_url_core
    (host : Str) (portDs : Option Str) (path query : Option Str)
    (hhostne : host ≠ [])
    (hhost : ∀ c ∈ host, goodHostChar c)
    (hport : ∀ ds, portDs = some ds →
      ds ≠ [] ∧ (∀ c ∈ ds, c.isDigit = true) ∧ 1 ≤ dsVal ds ∧ dsVal ds ≤ 65535)
    (hpath : ∀ p, path = some p →
      p.headD ' ' = '/' ∧ p ≠ [] ∧ ∀ c ∈ p, c ≠ '?' ∧ c ≠ '#')
    (hquery : ∀ q, query = some q → ∀ c ∈ q, c ≠ '#') :
    parseGurtUrl (buildUrl host portDs path query)
      = .ok (host, portDs.elim defaultPort dsVal,
          buildPath (path.getD []) (query.getD [])) := by
  set portPart : Str := portDs.elim [] (fun ds => ':' :: ds) with hppdef
  set pathPart : Str := path.getD [] with hpathdef
  set queryPart : Str := query.elim [] (fun q => '?' :: q) with hqdef
  have hA : ∀ c ∈ host ++ portPart, netlocChar c = true := by
    intro c hc
    rcases List.mem_append.mp hc with hm | hm
    · exact (hhost c hm).1
    · rw [hppdef] at hm
      cases hpd : portDs with
      | none => rw [hpd] at hm; exact absurd hm (List.not_mem_nil c)
      | some ds =>
        rw [hpd] at hm
        rcases List.mem_cons.mp hm with rfl | hm2
        · decide
        · exact isDigit_netlocChar c ((hport ds hpd).2.1 c hm2)
  have hBhead : queryPart = [] ∧ pathPart = [] ∨
      ∃ c t, pathPart ++ queryPart = c :: t ∧ netlocChar c = false := by
    cases hp : path with
    | some p =>
      obtain ⟨hph, hpne, _⟩ := hpath p hp
      right
      obtain ⟨c0, p', rfl⟩ : ∃ c0 p', p = c0 :: p' := by
        cases p with
        | nil => exact absurd rfl hpne
        | cons a b => exact ⟨a, b, rfl⟩
      have hc0 : c0 = '/' := by simpa using hph
      subst hc0
      refine ⟨'/', p' ++ queryPart, ?_, by decide⟩
      rw [hpathdef, hp]
      simp
    | none =>
      cases hq : query with
      | some q =>
        right
        refine ⟨'?', q, ?_, by decide⟩
        rw [hpathdef, hqdef, hp, hq]
        simp
      | none =>
        left
        constructor
        · rw [hqdef, hq]
          rfl
        · rw [hpathdef, hp]
          rfl
  have htakeB : (pathPart ++ queryPart).takeWhile netlocChar = [] := by
    rcases hBhead with ⟨h1, h2⟩ | ⟨c, t, heq, hcf⟩
    · rw [h1, h2]
      rfl
    · rw [heq]
      simp [List.takeWhile_cons, hcf]
  have hdropB : (pathPart ++ queryPart).dropWhile netlocChar
      = pathPart ++ queryPart := by
    rcases hBhead with ⟨h1, h2⟩ | ⟨c, t, heq, hcf⟩
    · rw [h1, h2]
      rfl
    · rw [heq]
      simp [List.dropWhile_cons, hcf]
  have hbuild : buildUrl host portDs path query
      = str "gurt://" ++ ((host ++ portPart) ++ (pathPart ++ queryPart)) := by
    unfold buildUrl
    rw [hppdef, hpathdef, hqdef]
    cases portDs <;> cases path <;> cases query <;>
      simp [Option.elim, Option.getD, List.append_assoc]
  have hpfx : (str "gurt://").isPrefixOf (buildUrl host portDs path query) = true := by
    rw [hbuild]
    exact isPrefixOf_append_self _ _
  have hdrop : (buildUrl host portDs path query).drop (str "gurt://").length
      = (host ++ portPart) ++ (pathPart ++ queryPart) := by
    rw [hbuild]
    exact List.drop_left _ _
  have htake : ((host ++ portPart) ++ (pathPart ++ queryPart)).takeWhile netlocChar
      = host ++ portPart := by
    rw [takeWhile_append_all _ _ _ hA, htakeB]
    simp
  have hdropW : ((host ++ portPart) ++ (pathPart ++ queryPart)).dropWhile netlocChar
      = pathPart ++ queryPart := by
    rw [dropWhile_append_all _ _ _ hA, hdropB]
  have hfrag : splitFirst '#' (pathPart ++ queryPart) = none := by
    apply splitFirst_not_mem
    intro hm
    rcases List.mem_append.mp hm with hm2 | hm2
    · cases hp : path with
      | none =>
        rw [hpathdef, hp] at hm2
        exact absurd hm2 (List.not_mem_nil _)
      | some p =>
        rw [hpathdef, hp] at hm2
        exact ((hpath p hp).2.2 '#' hm2).2 rfl
    · cases hq : query with
      | none =>
        rw [hqdef, hq] at hm2
        exact absurd hm2 (List.not_mem_nil _)
      | some q =>
        rw [hqdef, hq] at hm2
        rcases List.mem_cons.mp hm2 with he | hm3
        · exact absurd he (by decide)
        · exact (hquery q hq '#' hm3) rfl
  have hhostColon : ':' ∉ host := by
    intro hm
    exact ((hhost ':' hm).2.1) rfl
  have hlower : lowerStr host = host :=
    lowerStr_id host (fun c hc => (hhost c hc).2.2.2.2.2)
  have hclean : ∀ c ∈ host ++ portPart, c ≠ '@' ∧ c ≠ '[' ∧ c ≠ ']' := by
    intro c hc
    rcases List.mem_append.mp hc with hm | hm
    · exact ⟨(hhost c hm).2.2.1, (hhost c hm).2.2.2.1, (hhost c hm).2.2.2.2.1⟩
    · rw [hppdef] at hm
      cases hpd : portDs with
      | none => rw [hpd] at hm; exact absurd hm (List.not_mem_nil c)
      | some ds =>
        rw [hpd] at hm
        rcases List.mem_cons.mp hm with rfl | hm2
        · exact ⟨by decide, by decide, by decide⟩
        · have hd := (hport ds hpd).2.1 c hm2
          exact ⟨isDigit_ne c hd '@' (by decide), isDigit_ne c hd '[' (by decide),
            isDigit_ne c hd ']' (by decide)⟩
  have hqsplit : splitFirst '?' (pathPart ++ queryPart)
      = query.elim none (fun q => some (pathPart, q)) := by
    cases hq : query with
    | none =>
      rw [hqdef, hq]
      simp only [Option.elim]
      apply splitFirst_not_mem
      intro hm
      cases hp : path with
      | none =>
        rw [hpathdef, hp] at hm
        exact absurd (by simpa using hm) (List.not_mem_nil '?')
      | some p =>
        rw [hpathdef, hp] at hm
        exact ((hpath p hp).2.2 '?' (by simpa using hm)).1 rfl
    | some q =>
      rw [hqdef, hq]
      simp only [Option.elim]
      apply splitFirst_append
      intro hm
      cases hp : path with
      | none =>
        rw [hpathdef, hp] at hm
        exact absurd hm (List.not_mem_nil _)
      | some p =>
        rw [hpathdef, hp] at hm
        exact ((hpath p hp).2.2 '?' hm).1 rfl
  have hcolonsplit : splitFirst ':' (host ++ portPart)
      = portDs.elim none (fun ds => some (host, ds)) := by
    cases hpd : portDs with
    | none =>
      rw [hppdef, hpd]
      simp only [Option.elim]
      simpa using splitFirst_not_mem ':' host hhostColon
    | some ds =>
      rw [hppdef, hpd]
      simp only [Option.elim]
      exact splitFirst_append ':' host ds hhostColon
  have hnet : urlNetloc (buildUrl host portDs path query) = host ++ portPart := by
    unfold urlNetloc
    rw [hdrop]
    exact htake
  have hbm : bracketMismatch (urlNetloc (buildUrl host portDs path query)) = false := by
    rw [hnet]
    exact bracketMismatch_none _ (fun c hc => ⟨(hclean c hc).2.1, (hclean c hc).2.2⟩)
  have hhostinfo : hostinfoOf (host ++ portPart) = host ++ portPart := by
    unfold hostinfoOf
    rw [splitLast_not_mem '@' _ (fun hm => ((hclean '@' hm).1) rfl)]
  have hhp : hostPortOf (host ++ portPart) = (host, portDs) := by
    unfold hostPortOf
    rw [splitFirst_not_mem '[' _ (fun hm => ((hclean '[' hm).2.1) rfl)]
    dsimp only
    rw [hcolonsplit]
    cases hpd : portDs with
    | none =>
      have hpp0 : portPart = [] := by
        rw [hppdef, hpd]
        rfl
      dsimp only [Option.elim]
      rw [hpp0, List.append_nil]
    | some ds =>
      dsimp only [Option.elim]
      rw [if_neg (hport ds hpd).1]
  have hhostname : urlHostname (buildUrl host portDs path query) = host := by
    unfold urlHostname
    rw [hnet, hhostinfo, hhp]
    exact hlower
  have hport2 :
      (hostPortOf (hostinfoOf (urlNetloc (buildUrl host portDs path query)))).2
        = portDs := by
    rw [hnet, hhostinfo, hhp]
  unfold parseGurtUrl
  rw [hpfx]
  simp only [if_true]
  rw [hbm]
  simp only [Bool.false_eq_true, if_false]
  rw [hdrop, hdropW, hfrag]
  dsimp only
  rw [hqsplit, hhostname, hport2, if_neg hhostne]
  cases hpd : portDs with
  | none =>
    dsimp only [Option.elim]
    cases hq : query with
    | none =>
      have hqq0 : queryPart = [] := by
        rw [hqdef, hq]
        rfl
      dsimp only [Option.elim]
      simp only [hqq0, List.append_nil]
      rfl
    | some q =>
      dsimp only [Option.elim]
      rfl
  | some ds =>
    obtain ⟨hdsne, hdsdig, hds1, hds2⟩ := hport ds hpd
    have hall : ds.all Char.isDigit = true := all_eq_true_of _ _ hdsdig
    dsimp only [Option.elim]
    cases hq : query with
    | none =>
      have hqq0 : queryPart = [] := by
        rw [hqdef, hq]
        rfl
      dsimp only [Option.elim]
      simp only [hqq0, List.append_nil]
      rw [hall, if_pos (show (true = true) from rfl), if_pos hds2,
        if_neg (show ¬ dsVal ds = 0 from by omega)]
      rfl
    | some q =>
      dsimp only [Option.elim]
      rw [hall, if_pos (show (true = true) from rfl), if_pos hds2,
        if_neg (show ¬ dsVal ds = 0 from by omega)]
      rfl

theorem parse_gurt_url_port_overflow (host ds : Str)
    (hhostne : host ≠ [])
    (hhost : ∀ c ∈ host, goodHostChar c)
    (hdsne : ds ≠ [])
    (hdsdig : ∀ c ∈ ds, c.isDigit = true)
    (hbig : 65535 < dsVal ds) :
    parseGurtUrl (buildUrl host (some ds) none none)
      = .error (.valueError (str "Port out of range 0-65535")) := by
  have hbuild : buildUrl host (some ds) none none
      = str "gurt://" ++ (host ++ ':' :: ds) := by
    unfold buildUrl
    simp [List.append_assoc]
  have hA : ∀ c ∈ host ++ ':' :: ds, netlocChar c = true := by
    intro c hc
    rcases List.mem_append.mp hc with hm | hm
    · exact (hhost c hm).1
    · rcases List.mem_cons.mp hm with rfl | hm2
      · decide
      · exact isDigit_netlocChar c (hdsdig c hm2)
  have hclean : ∀ c ∈ host ++ ':' :: ds, c ≠ '@' ∧ c ≠ '[' ∧ c ≠ ']' := by
    intro c hc
    rcases List.mem_append.mp hc with hm | hm
    · exact ⟨(hhost c hm).2.2.1, (hhost c hm).2.2.2.1, (hhost c hm).2.2.2.2.1⟩
    · rcases List.mem_cons.mp hm with rfl | hm2
      · exact ⟨by decide, by decide, by decide⟩
      · have hd := hdsdig c hm2
        exact ⟨isDigit_ne c hd '@' (by decide), isDigit_ne c hd '[' (by decide),
          isDigit_ne c hd ']' (by decide)⟩
  have hpfx : (str "gurt://").isPrefixOf (buildUrl host (some ds) none none)
      = true := by
    rw [hbuild]
    exact isPrefixOf_append_self _ _
  have hnet : urlNetloc (buildUrl host (some ds) none none)
      = host ++ ':' :: ds := by
    unfold urlNetloc
    rw [hbuild, List.drop_left]
    exact takeWhile_all _ _ hA
  have hbm : bracketMismatch (urlNetloc (buildUrl host (some ds) none none))
      = false := by
    rw [hnet]
    exact bracketMismatch_none _ (fun c hc => ⟨(hclean c hc).2.1, (hclean c hc).2.2⟩)
  have hhostColon : ':' ∉ host := fun hm => ((hhost ':' hm).2.1) rfl
  have hhi : hostinfoOf (host ++ ':' :: ds) = host ++ ':' :: ds := by
    unfold hostinfoOf
    rw [splitLast_not_mem '@' _ (fun hm => ((hclean '@' hm).1) rfl)]
  have hhp : hostPortOf (host ++ ':' :: ds) = (host, some ds) := by
    unfold hostPortOf
    rw [splitFirst_not_mem '[' _ (fun hm => ((hclean '[' hm).2.1) rfl)]
    dsimp only
    rw [splitFirst_append ':' host ds hhostColon]
    dsimp only
    rw [if_neg hdsne]
  have hhostname : urlHostname (buildUrl host (some ds) none none) = host := by
    unfold urlHostname
    rw [hnet, hhi, hhp]
    exact lowerStr_id host (fun c hc => (hhost c hc).2.2.2.2.2)
  have hport2 :
      (hostPortOf (hostinfoOf (urlNetloc (buildUrl host (some ds) none none)))).2
        = some ds := by
    rw [hnet, hhi, hhp]
  have hall : ds.all Char.isDigit = true := all_eq_true_of _ _ hdsdig
  unfold parseGurtUrl
  rw [hpfx]
  simp only [if_true]
  rw [hbm]
  simp only [Bool.false_eq_true, if_false]
  rw [hhostname, hport2, if_neg hhostne]
  dsimp only
  rw [hall, if_pos (show (true = true) from rfl),
    if_neg (show ¬ dsVal ds ≤ 65535 from by omega)]

/-! ## Claim theorems -/

/-- C1 (corrected).  For every Request whose path is non-empty and
whitespace-free, whose version is whitespace-free, whose header keys
are lower-cased, colon-free and CR/LF-free with no surrounding
whitespace, whose header values are CR/LF-free with no surrounding
whitespace, and whose header keys are distinct, decoding the encoding
reproduces the method, path, version and body exactly, and reproduces
the header set up to the encoder's defaulting: the decoded headers are
the original headers with `content-length` and `user-agent` appended
when absent.  (The original claim asserted the header set is
reproduced exactly; the synthesized defaults refute that.) -/
theorem claim_C1 (r : GurtRequest)
    (hpathne : r.path ≠ []) (hpath : nospace r.path)
    (hver : nospace r.version)
    (hhdr : ∀ kv ∈ r.headers, goodKey kv.1 ∧ goodVal kv.2)
    (hnodup : (r.headers.map Prod.fst).Nodup) :
    GurtRequest.parse (GurtRequest.to_bytes r)
      = .ok { method := r.method, path := r.path, version := r.version,
              headers := requestDefaultHeaders r, body := r.body } :=
  request_roundtrip_core r hpathne hpath hver hhdr hnodup

/-- Witness for C1 at a concrete request. -/
theorem claim_C1_witness :
    GurtRequest.parse (GurtRequest.to_bytes reqSample)
      = .ok { method := .post, path := str "/api", version := gurtVersion,
              headers := [(str "host", str "example.com"),
                (clKey, str "2"), (uaKey, uaVal)], body := str "hi" } :=
  (claim_C1 reqSample (by decide) (by decide) (by decide) (by decide)
    (by decide)).trans (by decide)

/-- Counterexample to C1 as stated: a request with no headers decodes
to a request whose header set holds the two synthesized defaults, so
the header set is not reproduced exactly. -/
theorem claim_C1_counterexample :
    GurtRequest.parse (GurtRequest.to_bytes reqNoHeaders)
      = .ok { method := GurtMethod.get, path := str "/", version := gurtVersion,
              headers := [(clKey, str "0"), (uaKey, uaVal)], body := [] }
    ∧ reqNoHeaders.headers = []
    ∧ [(clKey, str "0"), (uaKey, uaVal)] ≠ ([] : List (Str × Str)) := by
  refine ⟨by decide, rfl, by decide⟩

/-- C2 (confirmed).  For every handshake response whose decoded status
code is not 101, the checked tail of `_perform_handshake` produces a
`GurtHandshakeError` whose message names the status received (code and
message), and the boolean recording whether the `wrap_socket` upgrade
step was reached is `false` for every possible wrap behaviour; the
exception handler leaves this error unchanged on the way out. -/
theorem claim_C2 (resp : GurtResponse) (wrap : Unit → Except PyExc TlsSock)
    (h : resp.status_code.val ≠ 101) :
    performHandshakeCheck resp wrap
      = (.error (.gurt (.handshakeError (handshakeMsg resp))), false)
    ∧ handshakeOutcome resp wrap
      = (.error (.handshakeError (handshakeMsg resp)), false) := by
  have h1 : performHandshakeCheck resp wrap
      = (.error (.gurt (.handshakeError (handshakeMsg resp))), false) := by
    unfold performHandshakeCheck
    rw [if_pos h]
  refine ⟨h1, ?_⟩
  unfold handshakeOutcome
  rw [h1]
  rfl

/-- Witness for C2 at a concrete 404 handshake response. -/
theorem claim_C2_witness :
    performHandshakeCheck respSample (fun _ => .ok { selected_alpn := some gurtAlpn })
      = (.error (.gurt (.handshakeError (handshakeMsg respSample))), false)
    ∧ handshakeOutcome respSample (fun _ => .ok { selected_alpn := some gurtAlpn })
      = (.error (.handshakeError (handshakeMsg respSample)), false) :=
  claim_C2 respSample _ (by decide)

/-- C3 (corrected).  The `except` clauses of `_perform_handshake`
re-raise unchanged only `GurtHandshakeError`, `GurtTLSError` and
`GurtTimeoutError`; a `GurtProtocolError` (for example from decoding
the handshake response), a `GurtConnectionError` (from the stream
closing mid-read), and the base `GurtError` are wrapped into
`GurtHandshakeError` with message `Handshake failed: <original>`;
`socket.timeout` becomes a timeout error and `ssl.SSLError` a TLS
error.  (The original claim asserted ProtocolError and ConnectionError
propagate with their kind unchanged; the handler wraps them.) -/
theorem claim_C3 (m : Str) :
    handshakeExcHandler (.gurt (.handshakeError m)) = .handshakeError m
    ∧ handshakeExcHandler (.gurt (.tlsError m)) = .tlsError m
    ∧ handshakeExcHandler (.gurt (.timeoutError m)) = .timeoutError m
    ∧ handshakeExcHandler (.gurt (.protocolError m))
        = .handshakeError (str "Handshake failed: " ++ m)
    ∧ handshakeExcHandler (.gurt (.connectionError m))
        = .handshakeError (str "Handshake failed: " ++ m)
    ∧ handshakeExcHandler (.gurt (.gurtError m))
        = .handshakeError (str "Handshake failed: " ++ m)
    ∧ handshakeExcHandler .socketTimeout = .timeoutError (str "Handshake timeout")
    ∧ handshakeExcHandler (.sslError m)
        = .tlsError (str "TLS handshake failed: " ++ m) :=
  ⟨rfl, rfl, rfl, rfl, rfl, rfl, rfl, rfl⟩

/-- Counterexample to C3 as stated: a `GurtProtocolError` raised while
decoding the handshake response does not cross the handshake boundary
with its kind unchanged — the handler turns it into a
`GurtHandshakeError`. -/
theorem claim_C3_counterexample :
    handshakeExcHandler (.gurt (.protocolError (str "Invalid status line format")))
      = .handshakeError (str "Handshake failed: Invalid status line format")
    ∧ handshakeExcHandler (.gurt (.protocolError (str "Invalid status line format")))
      ≠ .protocolError (str "Invalid status line format") := by
  refine ⟨by decide, by decide⟩

/-- C4 (corrected).  First part: for every Response with a
whitespace-free version, an explicit status message free of CR/LF, and
headers as in C1, decoding the encoding (the encode-time timestamp
`now` passed explicitly) reproduces the status code, the explicit
message — which overrides the registry's canonical message — and the
body, and reproduces the header set up to the encoder's defaulting of
`content-length`, `server` and `date`.  Second part: when the decoded
status line carries no third token, the status message is the
registry's canonical message for the code.  (The original claim
asserted the header set is reproduced exactly; the synthesized
defaults refute that.) -/
theorem claim_C4 :
    (∀ (now : Str) (r : GurtResponse), nospace r.version →
      noCRLF r.status_message →
      (∀ kv ∈ r.headers, goodKey kv.1 ∧ goodVal kv.2) →
      (r.headers.map Prod.fst).Nodup → goodVal now →
      GurtResponse.parse (GurtResponse.to_bytes now r)
        = .ok { version := r.version, status_code := r.status_code,
                status_message := r.status_message,
                headers := responseDefaultHeaders now r, body := r.body })
    ∧ (∀ (v : Str), nospace v → ∀ (code : GurtStatusCode) (b : Str),
      GurtResponse.parse (((protoPfx ++ v) ++ ' ' :: natToStr code.val)
          ++ (crlf ++ (crlf ++ b)))
        = .ok { version := v, status_code := code,
                status_message := statusMessage code, headers := [], body := b }) :=
  ⟨fun now r h1 h2 h3 h4 h5 => response_roundtrip_core now r h1 h2 h3 h4 h5,
   fun v hv code b => response_parse_canonical v hv code b⟩

/-- Witness for C4: a concrete explicit-message round trip and a
concrete two-token status line taking the canonical message. -/
theorem claim_C4_witness :
    GurtResponse.parse (GurtResponse.to_bytes nowStamp respSample)
      = .ok { version := gurtVersion, status_code := .notFound,
              status_message := str "Gone Fishing",
              headers := responseDefaultHeaders nowStamp respSample,
              body := str "nope" }
    ∧ GurtResponse.parse (((protoPfx ++ str "1.0.0")
          ++ ' ' :: natToStr GurtStatusCode.ok.val) ++ (crlf ++ (crlf ++ str "yo")))
      = .ok { version := str "1.0.0", status_code := .ok,
              status_message := statusMessage .ok, headers := [], body := str "yo" } :=
  ⟨claim_C4.1 nowStamp respSample (by decide) (by decide) (by decide) (by decide)
     (by decide),
   claim_C4.2 (str "1.0.0") (by decide) .ok (str "yo")⟩

/-- Counterexample to C4 as stated: a response with no headers decodes
to a response whose header set holds the three synthesized defaults,
so the header set is not reproduced exactly. -/
theorem claim_C4_counterexample :
    GurtResponse.parse (GurtResponse.to_bytes nowStamp respPlain)
      = .ok { version := gurtVersion, status_code := .ok,
              status_message := str "Fine",
              headers := [(clKey, str "0"), (str "server", str "GURT/1.0.0"),
                (str "date", nowStamp)],
              body := [] }
    ∧ respPlain.headers = []
    ∧ [(clKey, str "0"), (str "server", str "GURT/1.0.0"), (str "date", nowStamp)]
        ≠ ([] : List (Str × Str)) := by
  refine ⟨by decide, rfl, by decide⟩

/-- C5 (confirmed).  Request decode fails with ProtocolError whenever
the first line is not exactly three whitespace-separated tokens, or
the method token is unknown, or the version token lacks the `GURT/`
prefix; Response decode fails with ProtocolError whenever the first
status-line token lacks the prefix or the second token does not parse
as a known integer status code; each failure carries its own
distinguishing message. -/
theorem claim_C5 (s : Str) :
    ((pySplitWs (firstLineOf s)).length ≠ 3 →
      GurtRequest.parse s
        = .error (.protocolError (str "Invalid request line format")))
    ∧ (∀ mTok pTok vTok, pySplitWs (firstLineOf s) = [mTok, pTok, vTok] →
      methodOfStr mTok = none →
      GurtRequest.parse s
        = .error (.protocolError (str "Unsupported method: " ++ mTok)))
    ∧ (∀ mTok pTok vTok m, pySplitWs (firstLineOf s) = [mTok, pTok, vTok] →
      methodOfStr mTok = some m → protoPfx.isPrefixOf vTok = false →
      GurtRequest.parse s
        = .error (.protocolError (str "Invalid protocol identifier")))
    ∧ (protoPfx.isPrefixOf ((splitSpace2 (firstLineOf s)).headD []) = false →
      ∃ msg, GurtResponse.parse s = .error (.protocolError msg))
    ∧ (∀ p0 p1 rest, splitSpace2 (firstLineOf s) = p0 :: p1 :: rest →
      protoPfx.isPrefixOf p0 = true → statusFromTok p1 = none →
      GurtResponse.parse s
        = .error (.protocolError (str "Invalid status code: " ++ p1))) := by
  have hie := splitCRLF_isEmpty_false (headerSection s)
  refine ⟨?_, ?_, ?_, ?_, ?_⟩
  · intro hlen
    unfold firstLineOf at hlen
    unfold GurtRequest.parse
    dsimp only
    rw [hie]
    simp only [Bool.false_eq_true, if_false]
    rcases hps : pySplitWs ((splitCRLF (headerSection s)).headD []) with
      _ | ⟨a, _ | ⟨b, _ | ⟨c, _ | ⟨d, t⟩⟩⟩⟩
    · rfl
    · rfl
    · rfl
    · rw [hps] at hlen
      simp at hlen
    · rfl
  · intro mTok pTok vTok hps hm
    unfold firstLineOf at hps
    unfold GurtRequest.parse
    dsimp only
    rw [hie]
    simp only [Bool.false_eq_true, if_false]
    rw [hps]
    dsimp only
    rw [hm]
  · intro mTok pTok vTok m hps hm hpf
    unfold firstLineOf at hps
    unfold GurtRequest.parse
    dsimp only
    rw [hie]
    simp only [Bool.false_eq_true, if_false]
    rw [hps]
    dsimp only
    rw [hm]
    dsimp only
    rw [hpf]
    simp only [Bool.false_eq_true, if_false]
  · intro hpf
    unfold firstLineOf at hpf
    unfold GurtResponse.parse
    dsimp only
    rw [hie]
    simp only [Bool.false_eq_true, if_false]
    rcases hss : splitSpace2 ((splitCRLF (headerSection s)).headD []) with
      _ | ⟨p0, _ | ⟨p1, rest⟩⟩
    · exact absurd hss (splitSpace2_ne_nil _)
    · exact ⟨str "Invalid status line format", rfl⟩
    · rw [hss] at hpf
      simp only [List.headD_cons] at hpf
      dsimp only
      rw [hpf]
      simp only [Bool.false_eq_true, if_false]
      exact ⟨str "Invalid protocol identifier", rfl⟩
  · intro p0 p1 rest hss hpf hstat
    unfold firstLineOf at hss
    unfold GurtResponse.parse
    dsimp only
    rw [hie]
    simp only [Bool.false_eq_true, if_false]
    rw [hss]
    dsimp only
    rw [hpf]
    rw [if_pos (show (true = true) from rfl)]
    rw [hstat]

/-- Witness for C5: a one-token request line is rejected with the
request-line-format message. -/
theorem claim_C5_witness :
    GurtRequest.parse (str "hello\r\n\r\n")
      = .error (.protocolError (str "Invalid request line format")) :=
  (claim_C5 (str "hello\r\n\r\n")).1 (by decide)

/-- C8 (confirmed).  Over the closed status-code enumeration,
`is_success` holds exactly on {200, 201, 202, 204}, `is_client_error`
exactly on [400, 500), and `is_server_error` exactly on [500, 600). -/
theorem claim_C8 (c : GurtStatusCode) :
    (GurtStatusCode.is_success c = true
      ↔ c.val = 200 ∨ c.val = 201 ∨ c.val = 202 ∨ c.val = 204)
    ∧ (GurtStatusCode.is_client_error c = true ↔ 400 ≤ c.val ∧ c.val < 500)
    ∧ (GurtStatusCode.is_server_error c = true ↔ 500 ≤ c.val ∧ c.val < 600) := by
  cases c <;> refine ⟨by decide, by decide, by decide⟩

/-- C9 (confirmed).  For every stream whose first chunk delivers a
header block whose CRLF lines are any sequence of non-content-length
header lines, then a `content-length` header line with a non-numeric
value, then any further header lines, followed by the blank-line
terminator and any already-read body bytes, the framed reader does not
fail on that value: the declared body length is treated as 0 and the
reader returns the header bytes plus the body bytes that arrived with
the headers, never touching the rest of the stream. -/
theorem claim_C9 (pre post : List Str) (v b : Str) (rest : List Str)
    (hpre : ∀ l ∈ pre, l ≠ [] ∧ noCRLF l
      ∧ (str "content-length:").isPrefixOf (lowerStr l) = false)
    (hpost : ∀ l ∈ post, l ≠ [] ∧ noCRLF l)
    (hv : noCRLF v)
    (hnum : pyInt (pyStrip v) = none)
    (hsize : (joinCRLF (pre ++ (str "content-length:" ++ v) :: post)
        ++ crlf ++ crlf ++ b).length ≤ maxMessageSize) :
    readResponseData ((joinCRLF (pre ++ (str "content-length:" ++ v) :: post)
        ++ crlf ++ crlf ++ b) :: rest)
      = .ok (joinCRLF (pre ++ (str "content-length:" ++ v) :: post)
          ++ crlf ++ crlf ++ b) :=
  lenient_cl_general pre post v b rest hpre hpost hv hnum hsize

/-- Witness for C9 at a concrete stream declaring
`content-length: bogus` between two ordinary header lines. -/
theorem claim_C9_witness :
    readResponseData ((joinCRLF ([str "GURT/1.0.0 200 OK"]
        ++ (str "content-length:" ++ str " bogus") :: [str "server: GURT/1.0.0"])
        ++ crlf ++ crlf ++ str "ab") :: [str "unread"])
      = .ok (joinCRLF ([str "GURT/1.0.0 200 OK"]
          ++ (str "content-length:" ++ str " bogus") :: [str "server: GURT/1.0.0"])
          ++ crlf ++ crlf ++ str "ab") :=
  claim_C9 [str "GURT/1.0.0 200 OK"] [str "server: GURT/1.0.0"] (str " bogus")
    (str "ab") [str "unread"]
    (by decide) (by decide) (by decide) (by decide) (by decide)

/-- C10 (confirmed).  The default client configuration sets
`verify_tls = false`, so the SSL context built for the transport
upgrade has hostname checking switched off and certificate
verification set to `CERT_NONE`: the insecure development mode is the
default rather than an opt-in. -/
theorem claim_C10 :
    defaultClientConfig.verify_tls = false
    ∧ (createSslContext defaultClientConfig).check_hostname = false
    ∧ (createSslContext defaultClientConfig).verify_mode = VerifyMode.certNone := by
  refine ⟨rfl, by decide, by decide⟩
